import Mathlib

/-! # kuma: the HTTP request exchange (`src/http/HttpRequestImpl.cpp`) and the cache record (`src/http/HttpCache.h`)

A shallow embedding of `HttpRequestImpl` and of `HttpCache::CacheItem`.  The exchange is a record of its member
variables.  The transport (`TcpConnection`) and the response parser are external
collaborators: every call the exchange makes on them, and every owner callback it
invokes, is appended to the record's `log`, with what the call finds of the exchange
at that moment in `seen`, and what the collaborator answers is an explicit argument of
the embedded method (a reply), so every theorem quantifies over all behaviours of the
transport and of the parser.
-/

namespace Kuma

/-- A sequence of C++ `char` / `uint8_t` values: a `std::string`, a
`std::vector<uint8_t>`, or the bytes behind a pointer. -/
abbrev Bytes := List Char

/-- Modelled from the spec: the lifecycle states of section 4.1, in the order the spec
lists them; the `enum class State` itself is declared in a header that is not among
the sources. -/
inductive State
  | IDLE
  | CONNECTING
  | SENDING_HEADER
  | SENDING_BODY
  | RECVING_RESPONSE
  | COMPLETE
  | WAIT_FOR_REUSE
  | IN_ERROR
  | CLOSED
  deriving DecidableEq, Repr

/-- The underlying value of a `State` enumerator, used by `getState() < State::COMPLETE`. -/
def State.toNat : State → Nat
  | .IDLE => 0
  | .CONNECTING => 1
  | .SENDING_HEADER => 2
  | .SENDING_BODY => 3
  | .RECVING_RESPONSE => 4
  | .COMPLETE => 5
  | .WAIT_FOR_REUSE => 6
  | .IN_ERROR => 7
  | .CLOSED => 8

/-- Modelled from the spec: the success code; `kmdefs.h` is not among the sources. -/
def KUMA_ERROR_NOERR : Int := 0

/-- Modelled from the spec: the generic failure code; `kmdefs.h` is not among the
sources, only its being different from `KUMA_ERROR_NOERR` is used. -/
def KUMA_ERROR_FAILED : Int := -1

/-- Modelled from the spec: the generic socket-error code; `kmdefs.h` is not among the
sources, only its being different from `KUMA_ERROR_NOERR` is used. -/
def KUMA_ERROR_SOCKERR : Int := -13

/-- Modelled from the spec: the "destroyed" signal; `kmdefs.h` is not among the
sources, only its being different from the other codes is used. -/
def KUMA_ERROR_DESTROYED : Int := -699

/-- Modelled from the spec: the flag value "no TLS"; the constant is declared outside
the sources. -/
def SSL_NONE : Nat := 0

/-- Modelled from the spec: the flag bit "TLS enabled"; the constant is declared outside
the sources. -/
def SSL_ENABLE : Nat := 1

/-- Modelled from the spec: `body_bytes_sent` and `content_length` are `unsigned`
counters; their declaration is outside the sources and 32 bits is the width taken
here.  Additions to them wrap modulo this number. -/
def UNSIGNED_MOD : Nat := 2 ^ 32

/-- The conversion `(int)len` of a `size_t` to a 32-bit `int` (two's complement). -/
def toInt (n : Nat) : Int :=
  if n % 2 ^ 32 < 2 ^ 31 then ((n % 2 ^ 32 : Nat) : Int) else ((n % 2 ^ 32 : Nat) : Int) - 2 ^ 32

/-- The conversion of an `int` to `uint16_t`. -/
def toUInt16 (v : Int) : Nat := (v % 65536).toNat

/-- The decomposed URI (`uri_`): the strings its getters return. -/
structure Uri where
  scheme : Bytes
  host : Bytes
  port : Bytes
  path : Bytes
  query : Bytes
  fragment : Bytes
  deriving DecidableEq, Repr

/-- The header map `header_map_`, as the sequence of its entries in iteration order. -/
abbrev HeaderMap := List (Bytes × Bytes)

/-- One `iovec`: a base pointer (`none` is `nullptr`) and a length. -/
structure iovec where
  iov_base : Option Bytes
  iov_len : Nat
  deriving DecidableEq, Repr

/-- The bytes a (pointer, length) pair denotes. -/
def spanBytes (data : Option Bytes) (len : Nat) : Bytes :=
  (data.getD []).take len

/-- The bytes a vectored write puts on the wire: the spans of its buffers, in order. -/
def wireBytes : List iovec → Bytes
  | [] => []
  | v :: vs => spanBytes v.iov_base v.iov_len ++ wireBytes vs

/-- The events the parser raises through the event callback.  `OTHER` stands for
any enumerator the `switch` of `onHttpEvent` sends to `default`. -/
inductive HttpEvent
  | HTTP_HEADER_COMPLETE
  | HTTP_COMPLETE
  | HTTP_ERROR
  | OTHER
  deriving DecidableEq, Repr

/-- A call the exchange makes on a collaborator: on the transport
(`TcpConnection::...`), on the parser, or an owner callback. -/
inductive Call
  | setSslFlags (flags : Nat)
  | connect (host : Bytes) (port : Nat)
  | send (data : Option Bytes) (len : Nat)
  | sendv (iovs : List iovec)
  | sendBufferedData
  | close
  | setDataCallback
  | setEventCallback
  | parse (src : Bytes) (len : Nat)
  | setEOF
  | parser_reset
  | error_cb (err : Int)
  | write_cb (err : Int)
  | header_cb
  | response_cb
  | data_cb (data : Bytes) (len : Nat)
  deriving DecidableEq, Repr

/-- What a collaborator or the owner finds of the exchange at the moment a call is made on
it: the state, whether a flag is registered, and the send buffer. -/
structure Snapshot where
  state_ : State
  destroy_flag_ptr_ : Bool
  send_buffer_ : Bytes
  deriving DecidableEq, Repr

/-- The member variables of `HttpRequestImpl` (with those of its bases that the
methods below read or write).  A callback member is `true` when a callable is set.
`destroy_flag_ptr_` is `false` for `nullptr` and `true` when it points to the flag a
running operation has registered.
`log` is the sequence of calls made so far on the collaborators, and `seen` holds, for
each of these calls in the same order, the members as they were when the call was
made; the two are the history of the exchange, not members of the class. -/
structure HttpRequestImpl where
  state_ : State
  method_ : Bytes
  version_ : Bytes
  uri_ : Uri
  header_map_ : HeaderMap
  is_chunked_ : Bool
  content_length_ : Nat
  body_bytes_sent_ : Nat
  send_buffer_ : Bytes
  send_offset_ : Nat
  ssl_flags_ : Nat
  destroy_flag_ptr_ : Bool
  error_cb_ : Bool
  write_cb_ : Bool
  header_cb_ : Bool
  response_cb_ : Bool
  data_cb_ : Bool
  log : List Call
  seen : List Snapshot := []
  deriving DecidableEq, Repr

/-- What the transport answers to a send: the `int` it returns, and what it leaves in
the outbound buffer. -/
structure SendReply where
  ret : Int
  send_buffer : Bytes
  send_offset : Nat
  deriving DecidableEq, Repr

/-- The accessor `getState()`. -/
def getState (x : HttpRequestImpl) : State := x.state_

/-- The mutator `setState(state)`. -/
def setState (x : HttpRequestImpl) (s : State) : HttpRequestImpl := { x with state_ := s }

/-- The test `sendBufferEmpty()`. -/
def sendBufferEmpty (x : HttpRequestImpl) : Bool := x.send_buffer_.isEmpty

/-- The members a call made now finds. -/
def snapshot (x : HttpRequestImpl) : Snapshot :=
  { state_ := x.state_, destroy_flag_ptr_ := x.destroy_flag_ptr_, send_buffer_ := x.send_buffer_ }

/-- Appends one call to the log, with the members it finds. -/
def record (x : HttpRequestImpl) (c : Call) : HttpRequestImpl :=
  { x with log := x.log ++ [c], seen := x.seen ++ [snapshot x] }

/-- A send on the transport: the call is logged with the members it finds (the send
buffer is the one before the call) and the transport leaves the outbound buffer as its
reply says. -/
def transportSend (x : HttpRequestImpl) (c : Call) (t : SendReply) : HttpRequestImpl :=
  { x with send_buffer_ := t.send_buffer, send_offset_ := t.send_offset, log := x.log ++ [c],
           seen := x.seen ++ [snapshot x] }

/-- The C locale's `isspace`. -/
def isspace (c : Char) : Bool :=
  c = ' ' || c = '\t' || c = '\n' || c = '\x0b' || c = '\x0c' || c = '\r'

/-- The C locale's `isdigit`. -/
def isdigit (c : Char) : Bool := '0' ≤ c && c ≤ '9'

/-- What `ss << len` writes once `std::ios_base::hex` is set: the lowercase
hexadecimal digits of `len`, no prefix. -/
def hex (len : Nat) : Bytes := Nat.toDigits 16 len

/-- The extraction `ss >> str` into a `std::string`: leading whitespace is skipped,
then characters are taken up to the next whitespace or the end of the stream. -/
def extractString (ss : Bytes) : Bytes :=
  (ss.dropWhile isspace).takeWhile (fun c => !isspace c)

/-- The literal `_chunk_end_token_`. -/
def chunk_end_token : Bytes := "0\r\n\r\n".toList

/-- The method `HttpRequestImpl::sendChunk`; `t` is the transport's answer to the one send it makes. -/
def sendChunk (x : HttpRequestImpl) (data : Option Bytes) (len : Nat) (t : SendReply) :
    Int × HttpRequestImpl :=
  if data = none ∧ len = 0 then
    let x1 := transportSend x (.send (some chunk_end_token) chunk_end_token.length) t
    if t.ret < 0 then
      (t.ret, setState x1 .IN_ERROR)
    else if sendBufferEmpty x1 then
      (0, setState x1 .RECVING_RESPONSE)
    else
      (0, x1)
  else
    let ss : Bytes := hex len ++ "\r\n".toList
    let str : Bytes := extractString ss
    let iovs : List iovec :=
      [⟨some str, str.length⟩, ⟨data, len⟩, ⟨some "\r\n".toList, 2⟩]
    let x1 := transportSend x (.sendv iovs) t
    if t.ret < 0 then
      (t.ret, x1)
    else
      (toInt len, x1)

/-- The method `HttpRequestImpl::sendData`; `t` is the transport's answer to the send it
makes, when it makes one. -/
def sendData (x : HttpRequestImpl) (data : Option Bytes) (len : Nat) (t : SendReply) :
    Int × HttpRequestImpl :=
  if !sendBufferEmpty x || getState x != .SENDING_BODY then
    (0, x)
  else if x.is_chunked_ then
    sendChunk x data len t
  else if data = none ∨ len = 0 then
    (0, x)
  else
    let x1 := transportSend x (.send data len) t
    if t.ret < 0 then
      (t.ret, setState x1 .IN_ERROR)
    else if t.ret > 0 then
      let x2 := { x1 with body_bytes_sent_ := (x1.body_bytes_sent_ + t.ret.toNat) % UNSIGNED_MOD }
      if x2.body_bytes_sent_ ≥ x2.content_length_ ∧ sendBufferEmpty x2 then
        (t.ret, setState x2 .RECVING_RESPONSE)
      else
        (t.ret, x2)
    else
      (t.ret, x1)

/-- The method `HttpRequestImpl::onWrite`. -/
def onWrite (x : HttpRequestImpl) : HttpRequestImpl :=
  let cb (y : HttpRequestImpl) : HttpRequestImpl := if y.write_cb_ then record y (.write_cb 0) else y
  if getState x = .SENDING_HEADER then
    if !x.is_chunked_ ∧ x.content_length_ = 0 then
      setState x .RECVING_RESPONSE
    else
      cb (setState x .SENDING_BODY)
  else if getState x = .SENDING_BODY then
    if !x.is_chunked_ ∧ x.body_bytes_sent_ ≥ x.content_length_ then
      setState x .RECVING_RESPONSE
    else
      cb x
  else
    cb x

/-- An exchange in the body phase of a request with a 3-byte body, used in the examples. -/
def fixedBody : HttpRequestImpl :=
  { state_ := .SENDING_BODY, method_ := "POST".toList, version_ := "HTTP/1.1".toList,
    uri_ := ⟨"http".toList, "example.com".toList, [], "/".toList, [], []⟩,
    header_map_ := [], is_chunked_ := false, content_length_ := 3, body_bytes_sent_ := 0,
    send_buffer_ := [], send_offset_ := 0, ssl_flags_ := 0, destroy_flag_ptr_ := false,
    error_cb_ := true, write_cb_ := true, header_cb_ := true, response_cb_ := true,
    data_cb_ := true, log := [] }

/-- The exchange of scenario A: a GET of `http://example.com/` with no header set. -/
def scenarioA : HttpRequestImpl :=
  { state_ := .IDLE, method_ := "GET".toList, version_ := "HTTP/1.1".toList,
    uri_ := ⟨"http".toList, "example.com".toList, [], "/".toList, [], []⟩,
    header_map_ := [], is_chunked_ := false, content_length_ := 0, body_bytes_sent_ := 0,
    send_buffer_ := [], send_offset_ := 0, ssl_flags_ := 0, destroy_flag_ptr_ := false,
    error_cb_ := true, write_cb_ := true, header_cb_ := true, response_cb_ := true,
    data_cb_ := true, log := [] }

/-- The exchange of scenario A with a port string in its URI, before `sendRequest`. -/
def idleWithPort (port : Bytes) : HttpRequestImpl :=
  { scenarioA with uri_ := { scenarioA.uri_ with port := port } }

/-- What `sendRequest` leaves when it has asked the transport to connect: the state
`CONNECTING`, the TLS flags set, and the two calls made on the transport. -/
def connecting (x : HttpRequestImpl) (flags : Nat) (port : Nat) : HttpRequestImpl :=
  { x with state_ := .CONNECTING, ssl_flags_ := flags,
           log := x.log ++ [.setSslFlags flags, .connect x.uri_.host port],
           seen := x.seen ++ [snapshot (setState x .CONNECTING), snapshot (setState x .CONNECTING)] }

/-- One step of the body phase of an exchange: an owner call of `sendData` (with the
transport's answer), a writable notification, or progress the transport makes on its
outbound buffer between two calls. -/
inductive Step
  | sendData (data : Option Bytes) (len : Nat) (t : SendReply)
  | onWrite
  | transport (send_buffer : Bytes) (send_offset : Nat)
  deriving DecidableEq, Repr

/-- The effect of one step on the exchange. -/
def step (x : HttpRequestImpl) : Step → HttpRequestImpl
  | .sendData data len t => (sendData x data len t).2
  | .onWrite => onWrite x
  | .transport b o => { x with send_buffer_ := b, send_offset_ := o }

/-- The exchange after a sequence of steps. -/
def run (x : HttpRequestImpl) : List Step → HttpRequestImpl
  | [] => x
  | s :: rest => run (step x s) rest

/-- The number of steps of a run at which the state changes to `target`. -/
def transitionsTo (target : State) (x : HttpRequestImpl) : List Step → Nat
  | [] => 0
  | s :: rest =>
    (if x.state_ ≠ target ∧ (step x s).state_ = target then 1 else 0)
      + transitionsTo target (step x s) rest

/-- The number of body bytes the `sendData` calls of a run reported as accepted: the sum
of their positive return values. -/
def acceptedBytes (x : HttpRequestImpl) : List Step → Nat
  | [] => 0
  | s :: rest =>
    (match s with
      | .sendData data len t => (sendData x data len t).1.toNat
      | _ => 0)
      + acceptedBytes (step x s) rest

/-- Whether a logged call is a write on the transport. -/
def Call.isWrite : Call → Bool
  | .send _ _ => true
  | .sendv _ => true
  | .sendBufferedData => true
  | _ => false

/-- The writes on the transport among the logged calls. -/
def transportWrites (x : HttpRequestImpl) : List Call := x.log.filter Call.isWrite

/-- The request line and header block the claim describes, header by header. -/
def headerBlock : HeaderMap → Bytes
  | [] => []
  | kv :: rest => kv.1 ++ ": ".toList ++ kv.2 ++ "\r\n".toList ++ headerBlock rest

/-- The method `HttpRequestImpl::buildRequest`; `ss` is the string stream, written left to right. -/
def buildRequest (x : HttpRequestImpl) : HttpRequestImpl :=
  let ss : Bytes := []
  let ss := ss ++ x.method_ ++ " ".toList
  let ss := ss ++ x.uri_.path
  let ss := if !x.uri_.query.isEmpty then ss ++ "?".toList ++ x.uri_.query else ss
  let ss := if !x.uri_.fragment.isEmpty then ss ++ "#".toList ++ x.uri_.fragment else ss
  let ss := ss ++ " ".toList
  let ss := ss ++ x.version_ ++ "\r\n".toList
  let ss := x.header_map_.foldl (fun acc kv => acc ++ kv.1 ++ ": ".toList ++ kv.2 ++ "\r\n".toList) ss
  let ss := ss ++ "\r\n".toList
  { x with send_offset_ := 0, send_buffer_ := ss }

/-- Modelled from the spec: the identity of header names ignores letter case (data model,
`headers`); the comparator of the map type is declared outside the sources. -/
def keyEq (a b : Bytes) : Bool := a.map Char.toLower == b.map Char.toLower

/-- Modelled from the spec: the order the map keeps its keys in; the comparator of the
map type is declared outside the sources. -/
def keyLess (a b : Bytes) : Bool := decide (a.map Char.toLower < b.map Char.toLower)

/-- The lookup `header_map_.find(name)`: the value stored under the name, if any. -/
def findHeader : HeaderMap → Bytes → Option Bytes
  | [], _ => none
  | kv :: rest, name => if keyEq kv.1 name then some kv.2 else findHeader rest name

/-- The assignment `header_map_[name] = value`: an existing entry keeps its key and gets
the value, a new entry is put at its place in the key order. -/
def assignHeader : HeaderMap → Bytes → Bytes → HeaderMap
  | [], name, value => [(name, value)]
  | kv :: rest, name, value =>
    if keyEq kv.1 name then (kv.1, value) :: rest
    else if keyLess name kv.1 then (name, value) :: kv :: rest
    else kv :: assignHeader rest name value

/-- The header map after "if the name is absent, add it with this value". -/
def orDefault (m : HeaderMap) (name value : Bytes) : HeaderMap :=
  if findHeader m name = none then assignHeader m name value else m

/-- Modelled from the spec: `addHeader(name, value)` of the base class, which is not among
the sources: it stores the value under the name, replacing the value of a header that
is already present ("`Host` is always overwritten from the URI"). -/
def addHeader (x : HttpRequestImpl) (name value : Bytes) : HttpRequestImpl :=
  { x with header_map_ := assignHeader x.header_map_ name value }

/-- The method `HttpRequestImpl::checkHeaders`; `UserAgent` is the library constant of that
name, declared outside the sources. -/
def checkHeaders (UserAgent : Bytes) (x : HttpRequestImpl) : HttpRequestImpl :=
  let x := if findHeader x.header_map_ "Accept".toList = none then
      addHeader x "Accept".toList "*/*".toList else x
  let x := if findHeader x.header_map_ "Content-Type".toList = none then
      addHeader x "Content-Type".toList "application/octet-stream".toList else x
  let x := if findHeader x.header_map_ "User-Agent".toList = none then
      addHeader x "User-Agent".toList UserAgent else x
  let x := addHeader x "Host".toList x.uri_.host
  let x := if findHeader x.header_map_ "Cache-Control".toList = none then
      addHeader x "Cache-Control".toList "no-cache".toList else x
  let x := if findHeader x.header_map_ "Pragma".toList = none then
      addHeader x "Pragma".toList "no-cache".toList else x
  x

/-- Modelled from the spec: `is_equal` of `util/util.h`, which is not among the sources:
equality of two strings, letter case ignored as for header names. -/
def is_equal (a b : Bytes) : Bool := a.map Char.toLower == b.map Char.toLower

/-- The exceptions `std::stoi` throws. -/
inductive Exception
  | invalid_argument
  | out_of_range
  deriving DecidableEq, Repr

/-- The outcomes of `std::stoi`: the value read, or the exception thrown. -/
inductive StoiResult
  | value (v : Int)
  | throws (e : Exception)
  deriving DecidableEq, Repr

/-- The value of a run of decimal digits. -/
def digitsValue (ds : Bytes) : Nat := ds.foldl (fun acc c => 10 * acc + (c.toNat - 48)) 0

/-- The library function `std::stoi(str)` (base 10): leading whitespace is skipped, an
optional sign and the longest run of decimal digits are read; it throws
`std::invalid_argument` when there is no digit and `std::out_of_range` when the value
does not fit an `int`. -/
def stoi (str : Bytes) : StoiResult :=
  let s1 := str.dropWhile isspace
  let neg : Bool := s1.head? = some '-'
  let s2 := if s1.head? = some '-' ∨ s1.head? = some '+' then s1.tail else s1
  let ds := s2.takeWhile isdigit
  if ds.isEmpty then .throws .invalid_argument
  else
    let v : Int := if neg then -(digitsValue ds : Int) else (digitsValue ds : Int)
    if v < -(2 ^ 31) ∨ 2 ^ 31 - 1 < v then .throws .out_of_range else .value v

/-- How a call of a method ends: it returns a value, or an exception leaves it. -/
inductive Outcome
  | returned (ret : Int) (x : HttpRequestImpl)
  | thrown (e : Exception) (x : HttpRequestImpl)
  deriving DecidableEq, Repr

/-- The method `HttpRequestImpl::cleanup`, which closes the transport. -/
def cleanup (x : HttpRequestImpl) : HttpRequestImpl := record x .close

/-- The accessor `getSslFlags()` of the transport. -/
def getSslFlags (x : HttpRequestImpl) : Nat := x.ssl_flags_

/-- The method `HttpRequestImpl::sendRequestHeader`; `f` is the transport's answer to
`sendBufferedData()`, whose return value is an error code. -/
def sendRequestHeader (x : HttpRequestImpl) (f : SendReply) : HttpRequestImpl :=
  let x := { x with body_bytes_sent_ := 0 }
  let x := record x .setDataCallback
  let x := record x .setEventCallback
  let x := buildRequest x
  let x := setState x .SENDING_HEADER
  let x := transportSend x .sendBufferedData f
  if f.ret ≠ KUMA_ERROR_NOERR then
    let x := cleanup x
    let x := setState x .IN_ERROR
    if x.error_cb_ then record x (.error_cb KUMA_ERROR_SOCKERR) else x
  else if sendBufferEmpty x then
    if !x.is_chunked_ ∧ x.content_length_ = 0 then
      setState x .RECVING_RESPONSE
    else
      let x := setState x .SENDING_BODY
      if x.write_cb_ then record x (.write_cb 0) else x
  else
    x

/-- The method `HttpRequestImpl::sendRequest`; `c` is what the transport's `connect`
returns and `f` its answer to the header flush of the reuse branch. -/
def sendRequest (x : HttpRequestImpl) (c : Int) (f : SendReply) : Outcome :=
  if getState x = .IDLE then
    let x := setState x .CONNECTING
    let str_port := x.uri_.port
    let port : Nat := 80
    let ssl_flags : Nat := SSL_NONE
    let https := is_equal "https".toList x.uri_.scheme
    let port := if https then 443 else port
    let ssl_flags := if https then SSL_ENABLE ||| getSslFlags x else ssl_flags
    let connect (port : Nat) : Outcome :=
      let x := record { x with ssl_flags_ := ssl_flags } (.setSslFlags ssl_flags)
      .returned c (record x (.connect x.uri_.host port))
    if !str_port.isEmpty then
      match stoi str_port with
      | .value v => connect (toUInt16 v)
      | .throws e => .thrown e x
    else
      connect port
  else
    .returned KUMA_ERROR_NOERR (sendRequestHeader x f)

/-- The method `HttpRequestImpl::onConnect`. -/
def onConnect (x : HttpRequestImpl) (err : Int) (f : SendReply) : HttpRequestImpl :=
  if err ≠ KUMA_ERROR_NOERR then
    if x.error_cb_ then record x (.error_cb err) else x
  else
    sendRequestHeader x f

/-- The method `HttpRequestImpl::onHttpData`. -/
def onHttpData (x : HttpRequestImpl) (data : Bytes) (len : Nat) : HttpRequestImpl :=
  if x.data_cb_ then record x (.data_cb data len) else x

/-- The method `HttpRequestImpl::onHttpEvent`. -/
def onHttpEvent (x : HttpRequestImpl) (ev : HttpEvent) : HttpRequestImpl :=
  match ev with
  | .HTTP_HEADER_COMPLETE =>
    if x.header_cb_ then record x .header_cb else x
  | .HTTP_COMPLETE =>
    let x := setState x .COMPLETE
    if x.response_cb_ then record x .response_cb else x
  | .HTTP_ERROR =>
    let x := cleanup x
    let x := setState x .IN_ERROR
    if x.error_cb_ then record x (.error_cb KUMA_ERROR_FAILED) else x
  | .OTHER => x

/-- A callback the parser makes into the exchange while it runs. -/
inductive ParserCallback
  | data (data : Bytes) (len : Nat)
  | event (ev : HttpEvent)
  deriving DecidableEq, Repr

/-- The exchange after the callbacks a parser call makes, in order. -/
def deliver (x : HttpRequestImpl) : List ParserCallback → HttpRequestImpl
  | [] => x
  | .data d len :: rest => deliver (onHttpData x d len) rest
  | .event ev :: rest => deliver (onHttpEvent x ev) rest

/-- What a call of the parser does: the callbacks it makes, the value it returns
(`bytes_used` for `parse`, `completed` for `setEOF`), and whether the owner destroys the
exchange from inside one of the callbacks. -/
structure ParserReply where
  callbacks : List ParserCallback
  bytes_used : Int
  completed : Bool
  destroys : Bool
  deriving DecidableEq, Repr

/-- The destructor `~HttpRequestImpl`: whether it sets the registered flag. -/
def destructor (x : HttpRequestImpl) : Bool := x.destroy_flag_ptr_

/-- What a guarded operation leaves: the value of its local flag `destroyed` when it
returns, and the members of the exchange as the operation last left them. -/
structure Guarded where
  destroyed : Bool
  x : HttpRequestImpl
  deriving DecidableEq, Repr

/-- The method `HttpRequestImpl::onError`; `p` is what the parser does on `setEOF()`.  The
argument `err` is only traced by the source, and the `KUMA_ASSERT` is a check of debug
builds that changes no member. -/
def onError (x : HttpRequestImpl) (_err : Int) (p : ParserReply) : Guarded :=
  let tail (x : HttpRequestImpl) : Guarded :=
    let x := cleanup x
    if (getState x).toNat < State.COMPLETE.toNat then
      let x := setState x .IN_ERROR
      ⟨false, if x.error_cb_ then record x (.error_cb KUMA_ERROR_SOCKERR) else x⟩
    else
      ⟨false, setState x .CLOSED⟩
  if getState x = .RECVING_RESPONSE then
    let x := { x with destroy_flag_ptr_ := true }
    let x := deliver (record x .setEOF) p.callbacks
    let destroyed : Bool := p.destroys && destructor x
    if destroyed then
      ⟨true, x⟩
    else
      let x := { x with destroy_flag_ptr_ := false }
      if p.completed then
        ⟨false, cleanup x⟩
      else
        tail x
  else
    tail x

/-- The conversion of an `int` to `size_t` (64 bits) that the comparison
`bytes_used != len` makes. -/
def toSizeT (v : Int) : Nat := (v % 2 ^ 64).toNat

/-- What `handleInputData` leaves: the code it returns, the value of its local flag
`destroyed`, whether it traced the warning about `bytes_used`, and the members of the
exchange as it last left them. -/
structure InputResult where
  ret : Int
  destroyed : Bool
  warned : Bool
  x : HttpRequestImpl
  deriving DecidableEq, Repr

/-- The method `HttpRequestImpl::handleInputData`; `p` is what the parser does on `parse`.
The `KUMA_ASSERT` is a check of debug builds that changes no member. -/
def handleInputData (x : HttpRequestImpl) (src : Bytes) (len : Nat) (p : ParserReply) :
    InputResult :=
  let x := { x with destroy_flag_ptr_ := true }
  let x := deliver (record x (.parse src len)) p.callbacks
  let bytes_used := p.bytes_used
  let destroyed : Bool := p.destroys && destructor x
  if destroyed then
    ⟨KUMA_ERROR_DESTROYED, true, false, x⟩
  else
    let x := { x with destroy_flag_ptr_ := false }
    if getState x = .IN_ERROR ∨ getState x = .CLOSED then
      ⟨KUMA_ERROR_FAILED, false, false, x⟩
    else
      ⟨KUMA_ERROR_NOERR, false, decide (toSizeT bytes_used ≠ len), x⟩

/-- Modelled from the spec: `IHttpRequest::reset()` of the base class, which is not among
the sources: it "clears request-specific fields" (the headers and the description of
the body); the state is not one of them. -/
def IHttpRequest_reset (x : HttpRequestImpl) : HttpRequestImpl :=
  { x with header_map_ := [], is_chunked_ := false, content_length_ := 0,
           body_bytes_sent_ := 0 }

/-- The method `HttpRequestImpl::reset`. -/
def reset (x : HttpRequestImpl) : HttpRequestImpl :=
  let x := IHttpRequest_reset x
  let x := record x .parser_reset
  if getState x = .COMPLETE then setState x .WAIT_FOR_REUSE else x

/-- The method `HttpRequestImpl::close`. -/
def close (x : HttpRequestImpl) : Int × HttpRequestImpl :=
  let x := cleanup x
  let x := setState x .CLOSED
  (KUMA_ERROR_NOERR, x)

/-- Whether a logged call is a `connect` on the transport. -/
def Call.isConnect : Call → Bool
  | .connect _ _ => true
  | _ => false

/-- Whether a logged call is an invocation of the owner's error callback. -/
def Call.isErrorCb : Call → Bool
  | .error_cb _ => true
  | _ => false

/-- Whether a logged call is an invocation of one of the owner's callbacks. -/
def Call.isCallback : Call → Bool
  | .error_cb _ => true
  | .write_cb _ => true
  | .header_cb => true
  | .response_cb => true
  | .data_cb _ _ => true
  | _ => false

/-- Whether a parser callback is the event `HTTP_ERROR`. -/
def ParserCallback.isError : ParserCallback → Bool
  | .event .HTTP_ERROR => true
  | _ => false

/-- A duration of `n` seconds in ticks of `steady_clock`, whose period is the nanosecond.
Time points and durations are 64-bit counts that an `int` number of seconds added to
a reading of the clock does not overflow; they are integers here. -/
def seconds (n : Int) : Int := n * 1000000000

/-- The record `HttpCache::CacheItem`.  The two times are `steady_clock` time points, in
ticks since the clock's epoch. -/
structure CacheItem where
  status_code : Int
  headers : List (Bytes × Bytes)
  body : Bytes
  receive_time : Int
  expire_time : Int
  deriving DecidableEq, Repr

/-- The constructor `CacheItem(code, h, b, max_age)`; `now` is what `steady_clock::now()`
returns. -/
def CacheItem.create (code : Int) (h : List (Bytes × Bytes)) (b : Bytes) (max_age : Int)
    (now : Int) : CacheItem :=
  let receive_time := now
  let expire_time := receive_time + seconds max_age
  { status_code := code, headers := h, body := b,
    receive_time := receive_time, expire_time := expire_time }

/-- The move constructor `CacheItem(CacheItem &&other)`.  The members are default
initialised and four of them are then assigned; `uninit` is the members before the
assignments: `status_code`, an `int` with no initialiser, holds an indeterminate value. -/
def CacheItem.moveConstruct (uninit : CacheItem) (other : CacheItem) : CacheItem :=
  let this := uninit
  let this := { this with headers := other.headers }
  let this := { this with body := other.body }
  let this := { this with receive_time := other.receive_time }
  let this := { this with expire_time := other.expire_time }
  this

/-- The move assignment `operator=(CacheItem &&other)`; `same` says that `other` is the
object assigned to (`this == &other`). -/
def CacheItem.moveAssign (this : CacheItem) (other : CacheItem) (same : Bool) : CacheItem :=
  if !same then
    let this := { this with headers := other.headers }
    let this := { this with body := other.body }
    let this := { this with receive_time := other.receive_time }
    let this := { this with expire_time := other.expire_time }
    this
  else
    this

/-- Modelled from the spec: the validity test of a cache item ("valid iff current time <
`expire_time`"); `getCache`, which makes it, has no body among the sources. -/
def CacheItem.valid (item : CacheItem) (now : Int) : Bool := decide (now < item.expire_time)

/-- The exchange as the parser call of a guarded operation leaves it: the flag is
registered, the call is logged and the callbacks the parser makes are delivered. -/
def duringParser (x : HttpRequestImpl) (call : Call) (p : ParserReply) : HttpRequestImpl :=
  deliver (record { x with destroy_flag_ptr_ := true } call) p.callbacks

/-- The exchange at the point where `onError` tests `getState() < State::COMPLETE`: in
`RECVING_RESPONSE`, after `setEOF()` has returned and the registration has been
cleared; in any other state, as `onError` was entered. -/
def atStateTest (x : HttpRequestImpl) (p : ParserReply) : HttpRequestImpl :=
  if x.state_ = .RECVING_RESPONSE then
    { duringParser x .setEOF p with destroy_flag_ptr_ := false }
  else x

/-- The invocations of the owner's error callback among the logged calls. -/
def errorCalls (x : HttpRequestImpl) : List Call := x.log.filter Call.isErrorCb

/-- The `connect` calls on the transport among the logged calls. -/
def connectCalls (x : HttpRequestImpl) : List Call := x.log.filter Call.isConnect

/-- An exchange whose response is being received, used in the examples. -/
def receiving : HttpRequestImpl := setState scenarioA .RECVING_RESPONSE

/-- A cached response: status 200, one header, a 4-byte body, received at tick 1000 with
`max_age` 60. -/
def storedItem : CacheItem :=
  CacheItem.create 200 [("Cache-Control".toList, "max-age=60".toList)] "body".toList 60 1000

/-- A value-initialised `CacheItem`, as `caches_[key]` creates it before an assignment. -/
def emptyItem : CacheItem :=
  { status_code := 0, headers := [], body := [], receive_time := 0, expire_time := 0 }

/-- A transport event whose handler runs the parser under the guard. -/
inductive GuardedOp
  | handleInputData (src : Bytes) (len : Nat) (p : ParserReply)
  | onError (err : Int) (p : ParserReply)
  deriving DecidableEq, Repr

/-- The condition `nullptr == destroy_flag_ptr_` that `handleInputData` and `onError` assert
before they register their flag: no registration is active. -/
def noRegistration (x : HttpRequestImpl) : Bool := !x.destroy_flag_ptr_

/-- The exchange after a sequence of guarded operations; `none` once the owner has
destroyed it during one of them. -/
def runGuarded (x : HttpRequestImpl) : List GuardedOp → Option HttpRequestImpl
  | [] => some x
  | .handleInputData src len p :: rest =>
    if (handleInputData x src len p).destroyed then none
    else runGuarded (handleInputData x src len p).x rest
  | .onError err p :: rest =>
    if (onError x err p).destroyed then none
    else runGuarded (onError x err p).x rest

/-- An exchange in the body phase of a chunked request, used in the examples. -/
def chunkedBody : HttpRequestImpl :=
  { state_ := .SENDING_BODY, method_ := "POST".toList, version_ := "HTTP/1.1".toList,
    uri_ := ⟨"http".toList, "example.com".toList, [], "/".toList, [], []⟩,
    header_map_ := [], is_chunked_ := true, content_length_ := 0, body_bytes_sent_ := 0,
    send_buffer_ := [], send_offset_ := 0, ssl_flags_ := 0, destroy_flag_ptr_ := false,
    error_cb_ := true, write_cb_ := true, header_cb_ := true, response_cb_ := true,
    data_cb_ := true, log := [] }


/-! ## Body transmission: `sendData` and `sendChunk` -/

/-- C1 (the code at the failing input): for the payload "abc", `sendChunk` makes one
vectored write whose three buffers are "3", "abc" and "\r\n"; the bytes handed to the
transport are "3abc\r\n", which is not hex(3) ++ "\r\n" ++ "abc" ++ "\r\n": the
"\r\n" that ends the chunk-size line is missing, because `ss >> str` stops at the first
whitespace character. -/
theorem sendChunk_drops_crlf_after_size :
    (sendChunk chunkedBody (some "abc".toList) 3 ⟨6, [], 0⟩).2.log
        = [Call.sendv [⟨some "3".toList, 1⟩, ⟨some "abc".toList, 3⟩, ⟨some "\r\n".toList, 2⟩]]
      ∧ wireBytes [⟨some "3".toList, 1⟩, ⟨some "abc".toList, 3⟩, ⟨some "\r\n".toList, 2⟩]
        = "3abc\r\n".toList
      ∧ "3abc\r\n".toList ≠ hex 3 ++ "\r\n".toList ++ "abc".toList ++ "\r\n".toList := by
  decide

theorem digitChar_not_space (d : Nat) (h : d < 16) : isspace (Nat.digitChar d) = false := by
  revert d
  decide

theorem toDigitsCore_not_space (fuel n : Nat) (acc : List Char)
    (hacc : ∀ c ∈ acc, isspace c = false) :
    ∀ c ∈ Nat.toDigitsCore 16 fuel n acc, isspace c = false := by
  induction fuel generalizing n acc with
  | zero => simpa [Nat.toDigitsCore] using hacc
  | succ k ih =>
    have hd : isspace (Nat.digitChar (n % 16)) = false :=
      digitChar_not_space _ (Nat.mod_lt _ (by decide))
    have hacc2 : ∀ c ∈ Nat.digitChar (n % 16) :: acc, isspace c = false := by
      intro c hc
      rcases List.mem_cons.mp hc with h | h
      · rw [h]; exact hd
      · exact hacc c h
    simp only [Nat.toDigitsCore]
    split_ifs
    · exact hacc2
    · exact ih _ _ hacc2

theorem hex_not_space (len : Nat) : ∀ c ∈ hex len, isspace c = false :=
  toDigitsCore_not_space _ _ [] (by simp)

theorem takeWhile_not_space (h : Bytes) (hh : ∀ c ∈ h, isspace c = false) :
    (h ++ "\r\n".toList).takeWhile (fun c => !isspace c) = h := by
  induction h with
  | nil => decide
  | cons a t ih =>
    have ha : isspace a = false := hh a (List.mem_cons_self a t)
    have ht : ∀ c ∈ t, isspace c = false := fun c hc => hh c (List.mem_cons_of_mem a hc)
    rw [List.cons_append, List.takeWhile_cons]
    simp only [ha, Bool.not_false, if_true]
    rw [ih ht]

/-- The chunk-size line as `sendChunk` reads it back from the stream: the hexadecimal
digits alone. -/
theorem extractString_hex (len : Nat) : extractString (hex len ++ "\r\n".toList) = hex len := by
  have hh := hex_not_space len
  unfold extractString
  cases hl : hex len with
  | nil => decide
  | cons a t =>
    rw [hl] at hh
    have ha : isspace a = false := hh a (List.mem_cons_self a t)
    rw [List.cons_append, List.dropWhile_cons]
    simp only [ha, Bool.false_eq_true, if_false]
    exact takeWhile_not_space (a :: t) hh

/-- The one call `sendChunk` makes for a data chunk, whatever the payload: a vectored write
of the hexadecimal length, the payload and "\r\n", which puts
hex(len) ++ payload ++ "\r\n" on the wire. -/
theorem sendChunk_data_wire (x : HttpRequestImpl) (payload : Bytes) (t : SendReply) :
    (sendChunk x (some payload) payload.length t).2.log
        = x.log ++ [.sendv [⟨some (hex payload.length), (hex payload.length).length⟩,
            ⟨some payload, payload.length⟩, ⟨some "\r\n".toList, 2⟩]]
      ∧ wireBytes [⟨some (hex payload.length), (hex payload.length).length⟩,
            ⟨some payload, payload.length⟩, ⟨some "\r\n".toList, 2⟩]
          = hex payload.length ++ payload ++ "\r\n".toList
      ∧ hex payload.length ++ payload ++ "\r\n".toList
          ≠ hex payload.length ++ "\r\n".toList ++ payload ++ "\r\n".toList := by
  refine ⟨?_, ?_, ?_⟩
  · simp only [sendChunk, extractString_hex, transportSend]
    by_cases h : t.ret < 0 <;> simp [h]
  · simp [wireBytes, spanBytes]
  · intro h
    have := congrArg List.length h
    simp at this

/-- C2: in a chunked exchange in `SENDING_BODY` with an empty send buffer,
`sendData(nullptr, 0)` makes exactly one call on the transport, a send of the 5 bytes
"0\r\n\r\n"; when the transport answers a negative value the state becomes `IN_ERROR`
and that value is returned; otherwise 0 is returned, and the state becomes
`RECVING_RESPONSE` when the send buffer is empty after the send (and stays
`SENDING_BODY` when it is not). -/
theorem sendData_end_of_body (x : HttpRequestImpl) (t : SendReply)
    (hstate : x.state_ = .SENDING_BODY) (hchunked : x.is_chunked_ = true)
    (hbuf : x.send_buffer_ = []) :
    (sendData x none 0 t).2.log = x.log ++ [Call.send (some "0\r\n\r\n".toList) 5]
      ∧ spanBytes (some "0\r\n\r\n".toList) 5 = ['0', '\r', '\n', '\r', '\n']
      ∧ (t.ret < 0 →
          (sendData x none 0 t).1 = t.ret ∧ (sendData x none 0 t).2.state_ = .IN_ERROR)
      ∧ (0 ≤ t.ret →
          (sendData x none 0 t).1 = 0
          ∧ ((sendData x none 0 t).2.send_buffer_ = [] →
              (sendData x none 0 t).2.state_ = .RECVING_RESPONSE)
          ∧ ((sendData x none 0 t).2.send_buffer_ ≠ [] →
              (sendData x none 0 t).2.state_ = .SENDING_BODY)) := by
  have hlen : chunk_end_token.length = 5 := by decide
  have htok : chunk_end_token = "0\r\n\r\n".toList := rfl
  refine ⟨?_, by decide, ?_, ?_⟩
  · simp only [sendData, sendChunk, sendBufferEmpty, getState, hstate, hchunked, hbuf,
      transportSend, setState, hlen, htok]
    by_cases h1 : t.ret < 0 <;> by_cases h2 : t.send_buffer = [] <;> simp [h1, h2]
  · intro h1
    simp [sendData, sendChunk, sendBufferEmpty, getState, hstate, hchunked, hbuf,
      transportSend, setState, h1]
  · intro h1
    have h1n : ¬ t.ret < 0 := not_lt.mpr h1
    by_cases h2 : t.send_buffer = [] <;>
      simp [sendData, sendChunk, sendBufferEmpty, getState, hstate, hchunked, hbuf,
        transportSend, setState, h1n, h2]

/-- The witness of C2: the end of the body of `chunkedBody`, once with the transport
accepting the 5 bytes and once with the transport failing. -/
theorem sendData_end_of_body_witness :
    (sendData chunkedBody none 0 ⟨5, [], 0⟩).2.log = [Call.send (some "0\r\n\r\n".toList) 5]
      ∧ (sendData chunkedBody none 0 ⟨5, [], 0⟩).1 = 0
      ∧ (sendData chunkedBody none 0 ⟨5, [], 0⟩).2.state_ = .RECVING_RESPONSE
      ∧ (sendData chunkedBody none 0 ⟨-1, [], 0⟩).1 = -1
      ∧ (sendData chunkedBody none 0 ⟨-1, [], 0⟩).2.state_ = .IN_ERROR := by
  have h := sendData_end_of_body chunkedBody ⟨5, [], 0⟩ rfl rfl rfl
  have h2 := sendData_end_of_body chunkedBody ⟨-1, [], 0⟩ rfl rfl rfl
  exact ⟨h.1, (h.2.2.2 (by decide)).1, (h.2.2.2 (by decide)).2.1 (by decide),
    (h2.2.2.1 (by decide)).1, (h2.2.2.1 (by decide)).2⟩

/-- C4: when the state is not `SENDING_BODY` or the send buffer is not empty, `sendData`
returns 0 and leaves the exchange as it was: no call on the transport is logged, and
the state, `body_bytes_sent_` and every other member are unchanged, in chunked and in
fixed-length mode alike. -/
theorem sendData_rejected (x : HttpRequestImpl) (data : Option Bytes) (len : Nat) (t : SendReply)
    (h : x.state_ ≠ .SENDING_BODY ∨ x.send_buffer_ ≠ []) :
    sendData x data len t = (0, x) := by
  rcases h with h | h
  · simp [sendData, getState, h]
  · simp [sendData, sendBufferEmpty, h]

/-- The witness of C4: a send attempted while the exchange is still connecting. -/
theorem sendData_rejected_witness :
    sendData (setState chunkedBody .CONNECTING) (some "abc".toList) 3 ⟨3, [], 0⟩
      = (0, setState chunkedBody .CONNECTING) :=
  sendData_rejected (setState chunkedBody .CONNECTING) (some "abc".toList) 3 ⟨3, [], 0⟩
    (Or.inl (by decide))

/-- C5 (the claim fails as stated): for a payload of 2^31 bytes and a successful write,
`sendChunk` returns `(int)len`, which is -2147483648 and not `len`. -/
theorem sendChunk_return_wraps :
    (List.replicate (2 ^ 31) 'a').length = 2 ^ 31
      ∧ (sendChunk chunkedBody (some (List.replicate (2 ^ 31) 'a')) (2 ^ 31) ⟨7, [], 0⟩).1
          = -2147483648
      ∧ (sendChunk chunkedBody (some (List.replicate (2 ^ 31) 'a')) (2 ^ 31) ⟨7, [], 0⟩).1
          ≠ ((2 ^ 31 : Nat) : Int) := by
  have hne : ¬ (some (List.replicate (2 ^ 31) 'a') = none ∧ (2 ^ 31 : Nat) = 0) :=
    fun h => Option.some_ne_none _ h.1
  have hret : ¬ ((⟨7, [], 0⟩ : SendReply).ret < 0) := by decide
  have hval : toInt (2 ^ 31) = -2147483648 := by decide
  refine ⟨List.length_replicate _ _, ?_, ?_⟩
  · unfold sendChunk
    rw [if_neg hne]
    simp only [hret, if_false]
    exact hval
  · unfold sendChunk
    rw [if_neg hne]
    simp only [hret, if_false]
    rw [hval]
    decide

/-- C5 (amended): for every non-empty payload of length `len`, `sendChunk` returns
`(int)len` when the transport write succeeds, whatever non-negative number the
transport reports, and this is `len` itself whenever `len < 2^31`; it returns the
transport's negative result when the write fails; in both cases the state of the
exchange is the one it had. -/
theorem sendChunk_data_return (x : HttpRequestImpl) (payload : Bytes) (len : Nat) (t : SendReply)
    (hne : payload ≠ []) (hlen : len = payload.length) :
    (0 ≤ t.ret → (sendChunk x (some payload) len t).1 = toInt len)
      ∧ (len < 2 ^ 31 → toInt len = (len : Int))
      ∧ (t.ret < 0 → (sendChunk x (some payload) len t).1 = t.ret)
      ∧ (sendChunk x (some payload) len t).2.state_ = x.state_ := by
  have hlen0 : len ≠ 0 := by
    rw [hlen]
    exact fun h => hne (List.length_eq_zero.mp h)
  refine ⟨?_, ?_, ?_, ?_⟩
  · intro h
    have h1 : ¬ t.ret < 0 := not_lt.mpr h
    simp [sendChunk, h1]
  · intro h
    have h2 : len % 2 ^ 32 = len := Nat.mod_eq_of_lt (by omega)
    unfold toInt
    rw [h2, if_pos h]
  · intro h
    simp [sendChunk, h]
  · by_cases h : t.ret < 0 <;> simp [sendChunk, h, transportSend]

/-- The witness of C5: the payload "abc", once with the transport reporting 8 wire bytes
and once with the transport failing. -/
theorem sendChunk_data_return_witness :
    (sendChunk chunkedBody (some "abc".toList) 3 ⟨8, [], 0⟩).1 = 3
      ∧ (sendChunk chunkedBody (some "abc".toList) 3 ⟨8, [], 0⟩).2.state_ = .SENDING_BODY
      ∧ (sendChunk chunkedBody (some "abc".toList) 3 ⟨-1, [], 0⟩).1 = -1
      ∧ (sendChunk chunkedBody (some "abc".toList) 3 ⟨-1, [], 0⟩).2.state_ = .SENDING_BODY := by
  have h := sendChunk_data_return chunkedBody "abc".toList 3 ⟨8, [], 0⟩ (by decide) (by decide)
  have h2 := sendChunk_data_return chunkedBody "abc".toList 3 ⟨-1, [], 0⟩ (by decide) (by decide)
  refine ⟨?_, h.2.2.2, h2.2.2.1 (by decide), h2.2.2.2⟩
  rw [h.1 (by decide)]
  exact h.2.1 (by decide)

/-! ## The body phase as a sequence of steps -/

theorem step_is_chunked (x : HttpRequestImpl) (s : Step) :
    (step x s).is_chunked_ = x.is_chunked_ := by
  cases s with
  | sendData data len t =>
    simp only [step, sendData, sendChunk, transportSend, setState]
    split_ifs <;> rfl
  | onWrite =>
    simp only [step, onWrite, setState, record]
    split_ifs <;> rfl
  | transport b o => rfl

theorem step_content_length (x : HttpRequestImpl) (s : Step) :
    (step x s).content_length_ = x.content_length_ := by
  cases s with
  | sendData data len t =>
    simp only [step, sendData, sendChunk, transportSend, setState]
    split_ifs <;> rfl
  | onWrite =>
    simp only [step, onWrite, setState, record]
    split_ifs <;> rfl
  | transport b o => rfl

theorem run_append (x : HttpRequestImpl) (a b : List Step) :
    run x (a ++ b) = run (run x a) b := by
  induction a generalizing x with
  | nil => rfl
  | cons s rest ih => exact ih (step x s)

theorem run_is_chunked (x : HttpRequestImpl) (steps : List Step) :
    (run x steps).is_chunked_ = x.is_chunked_ := by
  induction steps generalizing x with
  | nil => rfl
  | cons s rest ih => rw [run, ih, step_is_chunked]

theorem run_content_length (x : HttpRequestImpl) (steps : List Step) :
    (run x steps).content_length_ = x.content_length_ := by
  induction steps generalizing x with
  | nil => rfl
  | cons s rest ih => rw [run, ih, step_content_length]

/-- A step of a fixed-length exchange enters `RECVING_RESPONSE` only with the counter at
or above the content length. -/
theorem step_enters_receiving (x : HttpRequestImpl) (s : Step)
    (hfixed : x.is_chunked_ = false) (hnot : x.state_ ≠ .RECVING_RESPONSE)
    (hrecv : (step x s).state_ = .RECVING_RESPONSE) :
    x.content_length_ ≤ (step x s).body_bytes_sent_ := by
  cases s with
  | sendData data len t =>
    simp only [step, sendData, hfixed, transportSend, setState, sendBufferEmpty, getState,
      Bool.false_eq_true, if_false] at hrecv ⊢
    split_ifs at hrecv ⊢ <;> simp_all
  | onWrite =>
    simp only [step, onWrite, hfixed, setState, record, getState] at hrecv ⊢
    split_ifs at hrecv ⊢ <;> simp_all
  | transport b o => exact absurd hrecv hnot

/-- In `RECVING_RESPONSE` a step changes neither the state nor the counter and makes no
write on the transport. -/
theorem step_in_receiving (x : HttpRequestImpl) (s : Step)
    (hrecv : x.state_ = .RECVING_RESPONSE) :
    (step x s).state_ = .RECVING_RESPONSE
      ∧ transportWrites (step x s) = transportWrites x
      ∧ (step x s).body_bytes_sent_ = x.body_bytes_sent_ := by
  cases s with
  | sendData data len t =>
    simp [step, sendData, getState, hrecv]
  | onWrite =>
    have h1 : x.state_ ≠ .SENDING_HEADER := by rw [hrecv]; decide
    have h2 : x.state_ ≠ .SENDING_BODY := by rw [hrecv]; decide
    simp only [step, onWrite, getState, if_neg h1, if_neg h2]
    by_cases h : x.write_cb_ = true <;>
      simp [h, record, transportWrites, hrecv, Call.isWrite, List.filter_append]
  | transport b o => exact ⟨hrecv, rfl, rfl⟩

/-- The counter of a fixed-length exchange grows by at most what `sendData` returns. -/
theorem step_counter_le (x : HttpRequestImpl) (s : Step) (hfixed : x.is_chunked_ = false) :
    (step x s).body_bytes_sent_ ≤ x.body_bytes_sent_ + acceptedBytes x [s] := by
  cases s with
  | sendData data len t =>
    simp only [step, acceptedBytes, sendData, hfixed, transportSend, setState, UNSIGNED_MOD,
      Bool.false_eq_true, if_false]
    split_ifs <;> simp <;> omega
  | onWrite =>
    simp only [step, onWrite, setState, record, acceptedBytes]
    split_ifs <;> simp
  | transport b o => simp [step, acceptedBytes]

theorem acceptedBytes_cons (x : HttpRequestImpl) (s : Step) (rest : List Step) :
    acceptedBytes x (s :: rest) = acceptedBytes x [s] + acceptedBytes (step x s) rest := by
  simp [acceptedBytes]

theorem run_counter_le (x : HttpRequestImpl) (steps : List Step) (hfixed : x.is_chunked_ = false) :
    (run x steps).body_bytes_sent_ ≤ x.body_bytes_sent_ + acceptedBytes x steps := by
  induction steps generalizing x with
  | nil => simp [run, acceptedBytes]
  | cons s rest ih =>
    have h1 := ih (step x s) (by rw [step_is_chunked, hfixed])
    have h2 := step_counter_le x s hfixed
    rw [acceptedBytes_cons, run]
    omega

theorem transitionsTo_receiving_zero (x : HttpRequestImpl) (steps : List Step)
    (hrecv : x.state_ = .RECVING_RESPONSE) :
    transitionsTo .RECVING_RESPONSE x steps = 0 := by
  induction steps generalizing x with
  | nil => rfl
  | cons s rest ih =>
    simp [transitionsTo, hrecv, ih (step x s) (step_in_receiving x s hrecv).1]

theorem transitionsTo_receiving_le_one (x : HttpRequestImpl) (steps : List Step) :
    transitionsTo .RECVING_RESPONSE x steps ≤ 1 := by
  induction steps generalizing x with
  | nil => simp [transitionsTo]
  | cons s rest ih =>
    by_cases h : x.state_ ≠ .RECVING_RESPONSE ∧ (step x s).state_ = .RECVING_RESPONSE
    · simp [transitionsTo, h, transitionsTo_receiving_zero (step x s) rest h.2]
    · have := ih (step x s)
      simp only [transitionsTo, if_neg h]
      omega


/-- C3: in a fixed-length exchange with content length `N` whose counter starts at 0, along
every sequence of `sendData` calls, writable notifications and transport progress, with
arbitrary transport answers: a step that changes the state to `RECVING_RESPONSE` leaves
`body_bytes_sent_ >= N`, and by then `sendData` has reported at least `N` bytes accepted;
a step taken in `RECVING_RESPONSE` leaves the state `RECVING_RESPONSE` and adds no write
on the transport; so the state changes to `RECVING_RESPONSE` at most once.  (The
property needs neither `N > 0` nor that the sequence starts in `SENDING_BODY`.) -/
theorem fixed_length_body_transition (x0 : HttpRequestImpl) (N : Nat)
    (hfixed : x0.is_chunked_ = false) (hN : x0.content_length_ = N)
    (hsent : x0.body_bytes_sent_ = 0) (pre : List Step) (s : Step) :
    ((run x0 pre).state_ ≠ .RECVING_RESPONSE →
        (run x0 (pre ++ [s])).state_ = .RECVING_RESPONSE →
        N ≤ (run x0 (pre ++ [s])).body_bytes_sent_ ∧ N ≤ acceptedBytes x0 (pre ++ [s]))
      ∧ ((run x0 pre).state_ = .RECVING_RESPONSE →
        (run x0 (pre ++ [s])).state_ = .RECVING_RESPONSE
          ∧ transportWrites (run x0 (pre ++ [s])) = transportWrites (run x0 pre))
      ∧ transitionsTo .RECVING_RESPONSE x0 (pre ++ [s]) ≤ 1 := by
  have hrun : run x0 (pre ++ [s]) = step (run x0 pre) s := by
    rw [run_append]
    rfl
  refine ⟨?_, ?_, transitionsTo_receiving_le_one x0 _⟩
  · intro hnot hrecv
    rw [hrun] at hrecv
    have h1 := step_enters_receiving (run x0 pre) s (by rw [run_is_chunked, hfixed]) hnot hrecv
    rw [run_content_length, hN] at h1
    have h2 := run_counter_le x0 (pre ++ [s]) hfixed
    rw [hrun] at h2 ⊢
    exact ⟨h1, by omega⟩
  · intro hrecv
    rw [hrun]
    exact ⟨(step_in_receiving _ s hrecv).1, (step_in_receiving _ s hrecv).2.1⟩

/-- The witness of C3: a 3-byte body sent as "ab" then "c"; the second send is the
step that changes the state, and a writable notification after it changes nothing. -/
theorem fixed_length_body_transition_witness :
    (run fixedBody [.sendData (some "ab".toList) 2 ⟨2, [], 0⟩]).state_ = .SENDING_BODY
      ∧ (run fixedBody ([.sendData (some "ab".toList) 2 ⟨2, [], 0⟩]
            ++ [.sendData (some "c".toList) 1 ⟨1, [], 0⟩])).state_ = .RECVING_RESPONSE
      ∧ 3 ≤ (run fixedBody ([.sendData (some "ab".toList) 2 ⟨2, [], 0⟩]
            ++ [.sendData (some "c".toList) 1 ⟨1, [], 0⟩])).body_bytes_sent_
      ∧ 3 ≤ acceptedBytes fixedBody ([.sendData (some "ab".toList) 2 ⟨2, [], 0⟩]
            ++ [.sendData (some "c".toList) 1 ⟨1, [], 0⟩])
      ∧ (run fixedBody ([.sendData (some "ab".toList) 2 ⟨2, [], 0⟩,
            .sendData (some "c".toList) 1 ⟨1, [], 0⟩] ++ [.onWrite])).state_ = .RECVING_RESPONSE
      ∧ transportWrites (run fixedBody ([.sendData (some "ab".toList) 2 ⟨2, [], 0⟩,
            .sendData (some "c".toList) 1 ⟨1, [], 0⟩] ++ [.onWrite]))
          = transportWrites (run fixedBody [.sendData (some "ab".toList) 2 ⟨2, [], 0⟩,
            .sendData (some "c".toList) 1 ⟨1, [], 0⟩]) := by
  have h := (fixed_length_body_transition fixedBody 3 rfl rfl rfl
    [.sendData (some "ab".toList) 2 ⟨2, [], 0⟩] (.sendData (some "c".toList) 1 ⟨1, [], 0⟩)).1
    (by decide) (by decide)
  have h2 := (fixed_length_body_transition fixedBody 3 rfl rfl rfl
    [.sendData (some "ab".toList) 2 ⟨2, [], 0⟩, .sendData (some "c".toList) 1 ⟨1, [], 0⟩]
    .onWrite).2.1 (by decide)
  exact ⟨by decide, by decide, h.1, h.2, h2.1, h2.2⟩

/-! ## The request line and the headers -/

theorem foldl_headers (m : HeaderMap) (init : Bytes) :
    m.foldl (fun acc kv => acc ++ kv.1 ++ ": ".toList ++ kv.2 ++ "\r\n".toList) init
      = init ++ headerBlock m := by
  induction m generalizing init with
  | nil => simp [headerBlock]
  | cons kv rest ih =>
    rw [List.foldl_cons, ih]
    simp [headerBlock, List.append_assoc]

theorem buildRequest_send_buffer (x : HttpRequestImpl) :
    (buildRequest x).send_buffer_
        = x.method_ ++ " ".toList ++ x.uri_.path
          ++ (if x.uri_.query ≠ [] then "?".toList ++ x.uri_.query else [])
          ++ (if x.uri_.fragment ≠ [] then "#".toList ++ x.uri_.fragment else [])
          ++ " ".toList ++ x.version_ ++ "\r\n".toList
          ++ headerBlock x.header_map_ ++ "\r\n".toList := by
  simp only [buildRequest, foldl_headers]
  by_cases hq : x.uri_.query = [] <;> by_cases hf : x.uri_.fragment = [] <;>
    simp [hq, hf, List.append_assoc]

/-- C6: `buildRequest` sets the send buffer to METHOD " " PATH, then "?" QUERY when the
query is not empty, then "#" FRAGMENT when the fragment is not empty, then " " VERSION
"\r\n", then for every entry of the header map, in map order, NAME ": " VALUE "\r\n",
then "\r\n"; and it sets the send offset to 0. -/
theorem buildRequest_wire (x : HttpRequestImpl) :
    (buildRequest x).send_buffer_
        = x.method_ ++ " ".toList ++ x.uri_.path
          ++ (if x.uri_.query ≠ [] then "?".toList ++ x.uri_.query else [])
          ++ (if x.uri_.fragment ≠ [] then "#".toList ++ x.uri_.fragment else [])
          ++ " ".toList ++ x.version_ ++ "\r\n".toList
          ++ headerBlock x.header_map_ ++ "\r\n".toList
      ∧ (buildRequest x).send_offset_ = 0 :=
  ⟨buildRequest_send_buffer x, rfl⟩

theorem keyEq_iff (a b : Bytes) : keyEq a b = true ↔ a.map Char.toLower = b.map Char.toLower := by
  simp [keyEq]

/-- The lookup does not tell apart two names that differ in letter case only. -/
theorem findHeader_congr (m : HeaderMap) (a b : Bytes) (h : keyEq a b = true) :
    findHeader m a = findHeader m b := by
  rw [keyEq_iff] at h
  induction m with
  | nil => rfl
  | cons kv rest ih =>
    have hk : keyEq kv.1 a = keyEq kv.1 b := by simp [keyEq, h]
    simp only [findHeader, hk, ih]

theorem findHeader_assign_same (m : HeaderMap) (name value k : Bytes) (h : keyEq name k = true) :
    findHeader (assignHeader m name value) k = some value := by
  have hk := h
  rw [keyEq_iff] at h
  induction m with
  | nil => simp [assignHeader, findHeader, hk]
  | cons kv rest ih =>
    by_cases h1 : keyEq kv.1 name = true
    · have h2 : keyEq kv.1 k = true := by
        rw [keyEq_iff] at h1 ⊢
        rw [h1, h]
      simp [assignHeader, findHeader, h1, h2]
    · have h2 : ¬ keyEq kv.1 k = true := by
        rw [keyEq_iff] at h1 ⊢
        rw [← h]
        exact h1
      by_cases h3 : keyLess name kv.1 = true
      · simp [assignHeader, findHeader, h1, h3, hk]
      · simp [assignHeader, findHeader, h1, h2, h3, ih]

theorem findHeader_assign_other (m : HeaderMap) (name value k : Bytes)
    (h : ¬ keyEq name k = true) :
    findHeader (assignHeader m name value) k = findHeader m k := by
  induction m with
  | nil => simp [assignHeader, findHeader, h]
  | cons kv rest ih =>
    by_cases h1 : keyEq kv.1 name = true
    · have h2 : ¬ keyEq kv.1 k = true := by
        rw [keyEq_iff] at h h1 ⊢
        rw [h1]
        exact h
      simp [assignHeader, findHeader, h1, h2]
    · by_cases h3 : keyLess name kv.1 = true
      · simp [assignHeader, findHeader, h1, h3, h]
      · by_cases h2 : keyEq kv.1 k = true
        · simp [assignHeader, findHeader, h1, h2, h3]
        · simp [assignHeader, findHeader, h1, h2, h3, ih]

theorem findHeader_assign (m : HeaderMap) (name value k : Bytes) :
    findHeader (assignHeader m name value) k
      = if keyEq name k = true then some value else findHeader m k := by
  by_cases hk : keyEq name k = true
  · rw [if_pos hk, findHeader_assign_same m name value k hk]
  · rw [if_neg hk, findHeader_assign_other m name value k hk]

theorem findHeader_orDefault (m : HeaderMap) (name value k : Bytes) :
    findHeader (orDefault m name value) k
      = if keyEq name k = true then some ((findHeader m name).getD value) else findHeader m k := by
  unfold orDefault
  by_cases hk : keyEq name k = true
  · rw [if_pos hk]
    by_cases hn : findHeader m name = none
    · rw [if_pos hn, findHeader_assign_same m name value k hk, hn]
      rfl
    · rw [if_neg hn, ← findHeader_congr m name k hk]
      cases hv : findHeader m name with
      | none => exact absurd hv hn
      | some v => rfl
  · rw [if_neg hk]
    by_cases hn : findHeader m name = none
    · rw [if_pos hn, findHeader_assign_other m name value k hk]
    · rw [if_neg hn]

theorem keyEq_refl (a : Bytes) : keyEq a a = true := by simp [keyEq]

theorem keyEq_comm (a b : Bytes) : keyEq a b = keyEq b a := by
  unfold keyEq
  by_cases h : a.map Char.toLower = b.map Char.toLower
  · rw [h]
  · have h2 : ¬ b.map Char.toLower = a.map Char.toLower := fun e => h e.symm
    simp [h, h2]

theorem checkHeaders_header_map (ua : Bytes) (x : HttpRequestImpl) :
    (checkHeaders ua x).header_map_
      = orDefault (orDefault (assignHeader (orDefault (orDefault (orDefault x.header_map_
          "Accept".toList "*/*".toList)
          "Content-Type".toList "application/octet-stream".toList)
          "User-Agent".toList ua)
          "Host".toList x.uri_.host)
          "Cache-Control".toList "no-cache".toList)
          "Pragma".toList "no-cache".toList := by
  simp only [checkHeaders, addHeader, orDefault]
  split_ifs <;> simp_all

/-- Lookups in a map built as `checkHeaders` builds it, for six names that differ pairwise. -/
theorem findHeader_stages (m : HeaderMap) (nA nC nU nH nK nP vA vC vU vH vK vP : Bytes)
    (hAC : keyEq nA nC = false) (hAU : keyEq nA nU = false) (hAH : keyEq nA nH = false)
    (hAK : keyEq nA nK = false) (hAP : keyEq nA nP = false) (hCU : keyEq nC nU = false)
    (hCH : keyEq nC nH = false) (hCK : keyEq nC nK = false) (hCP : keyEq nC nP = false)
    (hUH : keyEq nU nH = false) (hUK : keyEq nU nK = false) (hUP : keyEq nU nP = false)
    (hHK : keyEq nH nK = false) (hHP : keyEq nH nP = false) (hKP : keyEq nK nP = false)
    (k : Bytes) :
    findHeader (orDefault (orDefault (assignHeader (orDefault (orDefault (orDefault m
        nA vA) nC vC) nU vU) nH vH) nK vK) nP vP) k
      = if keyEq nP k = true then some ((findHeader m nP).getD vP)
        else if keyEq nK k = true then some ((findHeader m nK).getD vK)
        else if keyEq nH k = true then some vH
        else if keyEq nU k = true then some ((findHeader m nU).getD vU)
        else if keyEq nC k = true then some ((findHeader m nC).getD vC)
        else if keyEq nA k = true then some ((findHeader m nA).getD vA)
        else findHeader m k := by
  have hCA := keyEq_comm nA nC ▸ hAC
  have hUA := keyEq_comm nA nU ▸ hAU
  have hHA := keyEq_comm nA nH ▸ hAH
  have hKA := keyEq_comm nA nK ▸ hAK
  have hPA := keyEq_comm nA nP ▸ hAP
  have hUC := keyEq_comm nC nU ▸ hCU
  have hHC := keyEq_comm nC nH ▸ hCH
  have hKC := keyEq_comm nC nK ▸ hCK
  have hPC := keyEq_comm nC nP ▸ hCP
  have hHU := keyEq_comm nU nH ▸ hUH
  have hKU := keyEq_comm nU nK ▸ hUK
  have hPU := keyEq_comm nU nP ▸ hUP
  have hKH := keyEq_comm nH nK ▸ hHK
  have hPH := keyEq_comm nH nP ▸ hHP
  have hPK := keyEq_comm nK nP ▸ hKP
  simp only [findHeader_orDefault, findHeader_assign, hAC, hAU, hAH, hAK, hAP, hCU, hCH, hCK,
    hCP, hUH, hUK, hUP, hHK, hHP, hKP, Bool.false_eq_true, if_false]

theorem checkHeaders_frame (ua : Bytes) (x : HttpRequestImpl) :
    checkHeaders ua x = { x with header_map_ := (checkHeaders ua x).header_map_ } := by
  simp only [checkHeaders, addHeader]
  split_ifs <;> rfl

theorem checkHeaders_scenarioA (ua : Bytes) :
    (checkHeaders ua scenarioA).header_map_ =
      [("Accept".toList, "*/*".toList), ("Cache-Control".toList, "no-cache".toList),
       ("Content-Type".toList, "application/octet-stream".toList),
       ("Host".toList, "example.com".toList), ("Pragma".toList, "no-cache".toList),
       ("User-Agent".toList, ua)] := by
  simp +decide [checkHeaders, addHeader, scenarioA, findHeader, assignHeader, keyEq, keyLess]

theorem buildRequest_scenarioA (ua : Bytes) :
    (buildRequest (checkHeaders ua scenarioA)).send_buffer_
      = "GET / HTTP/1.1\r\n".toList
        ++ ("Accept: */*\r\nCache-Control: no-cache\r\nContent-Type: application/octet-stream\r\n".toList
        ++ ("Host: example.com\r\n".toList
        ++ ("Pragma: no-cache\r\nUser-Agent: ".toList ++ ua ++ "\r\n\r\n".toList))) := by
  rw [buildRequest_send_buffer, checkHeaders_frame, checkHeaders_scenarioA]
  simp [headerBlock, scenarioA]

/-- C7: after `checkHeaders` the header map holds `Host` with the host of the URI,
whatever the caller had stored under that name; `Accept`, `Content-Type`, `User-Agent`,
`Cache-Control` and `Pragma` each hold the caller's value when there was one and
otherwise the default (`*/*`, `application/octet-stream`, the library user agent,
`no-cache`, `no-cache`); the value of every other name is unchanged.  For
`http://example.com/` with no header set, method GET and version HTTP/1.1, the request
built afterwards starts with "GET / HTTP/1.1\r\n" and contains the line
"Host: example.com\r\n". -/
theorem checkHeaders_defaults (ua : Bytes) (x : HttpRequestImpl) :
    findHeader (checkHeaders ua x).header_map_ "Host".toList = some x.uri_.host
      ∧ findHeader (checkHeaders ua x).header_map_ "Accept".toList
          = some ((findHeader x.header_map_ "Accept".toList).getD "*/*".toList)
      ∧ findHeader (checkHeaders ua x).header_map_ "Content-Type".toList
          = some ((findHeader x.header_map_ "Content-Type".toList).getD
              "application/octet-stream".toList)
      ∧ findHeader (checkHeaders ua x).header_map_ "User-Agent".toList
          = some ((findHeader x.header_map_ "User-Agent".toList).getD ua)
      ∧ findHeader (checkHeaders ua x).header_map_ "Cache-Control".toList
          = some ((findHeader x.header_map_ "Cache-Control".toList).getD "no-cache".toList)
      ∧ findHeader (checkHeaders ua x).header_map_ "Pragma".toList
          = some ((findHeader x.header_map_ "Pragma".toList).getD "no-cache".toList)
      ∧ (∀ k : Bytes, keyEq "Accept".toList k = false → keyEq "Content-Type".toList k = false →
          keyEq "User-Agent".toList k = false → keyEq "Host".toList k = false →
          keyEq "Cache-Control".toList k = false → keyEq "Pragma".toList k = false →
          findHeader (checkHeaders ua x).header_map_ k = findHeader x.header_map_ k)
      ∧ "GET / HTTP/1.1\r\n".toList <+: (buildRequest (checkHeaders ua scenarioA)).send_buffer_
      ∧ "Host: example.com\r\n".toList <:+:
          (buildRequest (checkHeaders ua scenarioA)).send_buffer_ := by
  have key := findHeader_stages x.header_map_ "Accept".toList "Content-Type".toList
    "User-Agent".toList "Host".toList "Cache-Control".toList "Pragma".toList
    "*/*".toList "application/octet-stream".toList ua x.uri_.host "no-cache".toList
    "no-cache".toList (by decide) (by decide) (by decide) (by decide) (by decide) (by decide)
    (by decide) (by decide) (by decide) (by decide) (by decide) (by decide) (by decide)
    (by decide) (by decide)
  rw [checkHeaders_header_map]
  refine ⟨?_, ?_, ?_, ?_, ?_, ?_, ?_, ?_, ?_⟩
  · rw [key, if_neg (by decide), if_neg (by decide), if_pos (by decide)]
  · rw [key, if_neg (by decide), if_neg (by decide), if_neg (by decide), if_neg (by decide),
      if_neg (by decide), if_pos (by decide)]
  · rw [key, if_neg (by decide), if_neg (by decide), if_neg (by decide), if_neg (by decide),
      if_pos (by decide)]
  · rw [key, if_neg (by decide), if_neg (by decide), if_neg (by decide), if_pos (by decide)]
  · rw [key, if_neg (by decide), if_pos (by decide)]
  · rw [key, if_pos (by decide)]
  · intro k h1 h2 h3 h4 h5 h6
    rw [key, h1, h2, h3, h4, h5, h6]
    rfl
  · exact ⟨_, buildRequest_scenarioA ua |>.symm⟩
  · refine ⟨"GET / HTTP/1.1\r\nAccept: */*\r\nCache-Control: no-cache\r\nContent-Type: application/octet-stream\r\n".toList,
      "Pragma: no-cache\r\nUser-Agent: ".toList ++ ua ++ "\r\n\r\n".toList, ?_⟩
    rw [buildRequest_scenarioA]
    simp

/-- The witness of C7: a caller that had set `Host` and a header of its own. -/
theorem checkHeaders_defaults_witness :
    findHeader (checkHeaders "kuma".toList
        { scenarioA with
          header_map_ := [("Host".toList, "other".toList), ("X-Id".toList, "7".toList)] }).header_map_
        "Host".toList = some "example.com".toList
      ∧ findHeader (checkHeaders "kuma".toList
        { scenarioA with
          header_map_ := [("Host".toList, "other".toList), ("X-Id".toList, "7".toList)] }).header_map_
        "X-Id".toList = some "7".toList := by
  have h := checkHeaders_defaults "kuma".toList
    { scenarioA with
      header_map_ := [("Host".toList, "other".toList), ("X-Id".toList, "7".toList)] }
  exact ⟨h.1, h.2.2.2.2.2.2.1 "X-Id".toList (by decide) (by decide) (by decide) (by decide)
    (by decide) (by decide)⟩


/-! ## Starting the exchange: `sendRequest` -/

/-- C8 (the claim fails as stated): for the port string "65536", which denotes the integer
65536, `sendRequest` asks the transport to connect on port 0: the port is a `uint16_t`. -/
theorem sendRequest_port_truncated :
    stoi "65536".toList = .value 65536
      ∧ sendRequest (idleWithPort "65536".toList) 0 ⟨0, [], 0⟩
          = .returned 0 (connecting (idleWithPort "65536".toList) 0 0) := by
  decide

theorem ssl_enable_set (n : Nat) : (SSL_ENABLE ||| n) &&& SSL_ENABLE = SSL_ENABLE := by
  unfold SSL_ENABLE
  rw [Nat.and_one_is_mod]
  apply Nat.eq_of_testBit_eq
  intro i
  cases i with
  | zero => simp [Nat.testBit_zero, Nat.or_mod_two_eq_one]
  | succ j => simp [Nat.testBit_succ, Nat.mod_div_self]

/-- C8 (amended): in state `IDLE`, `sendRequest` sets the state to `CONNECTING`, sets the TLS
flags and asks the transport to connect to the host of the URI, and returns what
`connect` returns.  `SSL_ENABLE` is set in the flags exactly when the scheme is https.
When the port string is empty the port is 443 for https and 80 otherwise; when it is
not empty and `std::stoi` reads the integer `v` from it, the port is `v` converted to
`uint16_t`, which is `v` itself when `0 <= v <= 65535`. -/
theorem sendRequest_idle (x : HttpRequestImpl) (c : Int) (f : SendReply)
    (hidle : x.state_ = .IDLE) :
    (((if is_equal "https".toList x.uri_.scheme then SSL_ENABLE ||| x.ssl_flags_ else SSL_NONE)
          &&& SSL_ENABLE = SSL_ENABLE)
        ↔ is_equal "https".toList x.uri_.scheme = true)
      ∧ (x.uri_.port = [] →
          sendRequest x c f = .returned c (connecting x
            (if is_equal "https".toList x.uri_.scheme then SSL_ENABLE ||| x.ssl_flags_ else SSL_NONE)
            (if is_equal "https".toList x.uri_.scheme then 443 else 80)))
      ∧ (∀ v : Int, x.uri_.port ≠ [] → stoi x.uri_.port = .value v →
          sendRequest x c f = .returned c (connecting x
            (if is_equal "https".toList x.uri_.scheme then SSL_ENABLE ||| x.ssl_flags_ else SSL_NONE)
            (toUInt16 v))
          ∧ (0 ≤ v → v ≤ 65535 → (toUInt16 v : Int) = v)) := by
  refine ⟨?_, ?_, ?_⟩
  · by_cases hs : is_equal "https".toList x.uri_.scheme = true
    · simp only [hs, if_true, ssl_enable_set]
    · simp only [hs, if_false, Bool.false_eq_true]
      simp [SSL_NONE, SSL_ENABLE]
  · intro hp
    simp only [sendRequest, getState, hidle, setState, hp, record, connecting, getSslFlags,
      snapshot]
    simp
  · intro v hp hv
    refine ⟨?_, ?_⟩
    · simp only [sendRequest, getState, hidle, setState, record, connecting, getSslFlags, hv,
        snapshot]
      simp [hp]
    · intro h0 h1
      unfold toUInt16
      rw [Int.emod_eq_of_lt h0 (by omega), Int.toNat_of_nonneg h0]

/-- The witness of C8: `https://example.com:8443/`, and `http://example.com/` with no port. -/
theorem sendRequest_idle_witness :
    stoi "8443".toList = .value 8443
      ∧ sendRequest { scenarioA with uri_ := ⟨"https".toList, "example.com".toList,
            "8443".toList, "/".toList, [], []⟩ } 0 ⟨0, [], 0⟩
          = .returned 0 (connecting { scenarioA with uri_ := ⟨"https".toList,
              "example.com".toList, "8443".toList, "/".toList, [], []⟩ } 1 8443)
      ∧ sendRequest scenarioA 0 ⟨0, [], 0⟩ = .returned 0 (connecting scenarioA 0 80) := by
  have h := (sendRequest_idle { scenarioA with uri_ := ⟨"https".toList, "example.com".toList,
    "8443".toList, "/".toList, [], []⟩ } 0 ⟨0, [], 0⟩ rfl).2.2 8443 (by decide) (by decide)
  have h2 := (sendRequest_idle scenarioA 0 ⟨0, [], 0⟩ rfl).2.1 rfl
  exact ⟨by decide, h.1, h2⟩

/-- C9 (the code at the failing input): in state `IDLE` with the port string "abc",
`sendRequest` does not return: `std::stoi` throws `std::invalid_argument`, which nothing
catches, after the state has been set to `CONNECTING` and before any call on the
transport. -/
theorem sendRequest_throws_on_port (c : Int) (f : SendReply) :
    sendRequest (idleWithPort "abc".toList) c f
      = .thrown .invalid_argument (setState (idleWithPort "abc".toList) .CONNECTING) := by
  have h : stoi "abc".toList = .throws .invalid_argument := by decide
  simp only [sendRequest, getState, setState, idleWithPort, scenarioA, h]
  rfl


/-! ## Transport failures -/

theorem onHttpData_error_cb (x : HttpRequestImpl) (d : Bytes) (len : Nat) :
    (onHttpData x d len).error_cb_ = x.error_cb_ := by
  simp only [onHttpData, record]
  split_ifs <;> rfl

theorem onHttpEvent_error_cb (x : HttpRequestImpl) (ev : HttpEvent) :
    (onHttpEvent x ev).error_cb_ = x.error_cb_ := by
  cases ev <;> simp only [onHttpEvent, record, setState, cleanup] <;> split_ifs <;> rfl

theorem deliver_error_cb (x : HttpRequestImpl) (cbs : List ParserCallback) :
    (deliver x cbs).error_cb_ = x.error_cb_ := by
  induction cbs generalizing x with
  | nil => rfl
  | cons cb rest ih =>
    cases cb with
    | data d len => rw [deliver, ih, onHttpData_error_cb]
    | event ev => rw [deliver, ih, onHttpEvent_error_cb]

/-- C10 (the claim fails as stated): a failed connect delivered to `onConnect` leaves the
state `CONNECTING`, not `IN_ERROR`, and hands the error callback the connect error
itself; a failed fixed-length body write in `sendData` sets the state to `IN_ERROR`
and returns the negative result, and no error callback is invoked. -/
theorem transport_failures_not_uniform :
    (onConnect (setState scenarioA .CONNECTING) KUMA_ERROR_FAILED ⟨0, [], 0⟩).state_
        = .CONNECTING
      ∧ (onConnect (setState scenarioA .CONNECTING) KUMA_ERROR_FAILED ⟨0, [], 0⟩).log
        = [Call.error_cb KUMA_ERROR_FAILED]
      ∧ KUMA_ERROR_FAILED ≠ KUMA_ERROR_SOCKERR
      ∧ fixedBody.error_cb_ = true
      ∧ (sendData fixedBody (some "abc".toList) 3 ⟨-1, [], 0⟩).1 = -1
      ∧ (sendData fixedBody (some "abc".toList) 3 ⟨-1, [], 0⟩).2.state_ = .IN_ERROR
      ∧ (sendData fixedBody (some "abc".toList) 3 ⟨-1, [], 0⟩).2.log
        = [Call.send (some "abc".toList) 3] := by
  decide

/-- C10 (amended): a failed header flush in `sendRequestHeader`, and a socket error
delivered to `onError` while the state is earlier than `COMPLETE` (in
`RECVING_RESPONSE`: when the exchange is not destroyed during `setEOF`, the parser does
not report the message complete and the state its callbacks leave is earlier than
`COMPLETE`), close the transport, leave the state `IN_ERROR` and invoke the error
callback, when one is set, with `KUMA_ERROR_SOCKERR`.  A failed connect delivered to
`onConnect` invokes the error callback, when one is set, with the connect error and
leaves the state as it was.  A failed fixed-length body write and a failed end-of-body
write in `sendData` leave the state `IN_ERROR` and return the transport's negative
result; the only call they log is the send, no callback is invoked. -/
theorem transport_failure_handling (x : HttpRequestImpl) :
    (∀ f : SendReply, f.ret ≠ KUMA_ERROR_NOERR →
        (sendRequestHeader x f).state_ = .IN_ERROR
        ∧ (sendRequestHeader x f).log
            = x.log ++ [.setDataCallback, .setEventCallback, .sendBufferedData, .close]
              ++ (if x.error_cb_ then [.error_cb KUMA_ERROR_SOCKERR] else []))
      ∧ (∀ (err : Int) (p : ParserReply), x.state_ ≠ .RECVING_RESPONSE →
        x.state_.toNat < State.COMPLETE.toNat →
        (onError x err p).destroyed = false
        ∧ (onError x err p).x.state_ = .IN_ERROR
        ∧ (onError x err p).x.log
            = x.log ++ [.close] ++ (if x.error_cb_ then [.error_cb KUMA_ERROR_SOCKERR] else []))
      ∧ (∀ (err : Int) (p : ParserReply), x.state_ = .RECVING_RESPONSE →
        p.destroys = false → p.completed = false →
        (deliver (record { x with destroy_flag_ptr_ := true } .setEOF) p.callbacks).state_.toNat
          < State.COMPLETE.toNat →
        (onError x err p).destroyed = false
        ∧ (onError x err p).x.state_ = .IN_ERROR
        ∧ (onError x err p).x.log
            = (deliver (record { x with destroy_flag_ptr_ := true } .setEOF) p.callbacks).log
              ++ [.close] ++ (if x.error_cb_ then [.error_cb KUMA_ERROR_SOCKERR] else []))
      ∧ (∀ (err : Int) (f : SendReply), err ≠ KUMA_ERROR_NOERR →
        (onConnect x err f).state_ = x.state_
        ∧ (onConnect x err f).log = x.log ++ (if x.error_cb_ then [.error_cb err] else []))
      ∧ (∀ (data : Bytes) (len : Nat) (t : SendReply), x.is_chunked_ = false →
        x.state_ = .SENDING_BODY → x.send_buffer_ = [] → len ≠ 0 → t.ret < 0 →
        (sendData x (some data) len t).1 = t.ret
        ∧ (sendData x (some data) len t).2.state_ = .IN_ERROR
        ∧ (sendData x (some data) len t).2.log = x.log ++ [.send (some data) len])
      ∧ (∀ t : SendReply, x.is_chunked_ = true →
        x.state_ = .SENDING_BODY → x.send_buffer_ = [] → t.ret < 0 →
        (sendData x none 0 t).1 = t.ret
        ∧ (sendData x none 0 t).2.state_ = .IN_ERROR
        ∧ (sendData x none 0 t).2.log = x.log ++ [.send (some "0\r\n\r\n".toList) 5]) := by
  refine ⟨?_, ?_, ?_, ?_, ?_, ?_⟩
  · intro f hf
    simp only [sendRequestHeader, if_pos hf, cleanup, setState, record, transportSend,
      buildRequest]
    by_cases hcb : x.error_cb_ = true <;> simp [hcb]
  · intro err p hs hlt
    simp only [onError, getState, if_neg hs, cleanup, record, if_pos hlt, setState]
    by_cases hcb : x.error_cb_ = true <;> simp [hcb]
  · intro err p hs hd hc hlt
    have hcb : (deliver (record { x with destroy_flag_ptr_ := true } .setEOF) p.callbacks).error_cb_
        = x.error_cb_ := deliver_error_cb _ _
    unfold onError
    simp only [getState, if_pos hs, hd, hc, Bool.false_and, Bool.false_eq_true, if_false]
    generalize deliver (record { x with destroy_flag_ptr_ := true } .setEOF) p.callbacks = y
      at hlt hcb ⊢
    have hlt2 : (cleanup { y with destroy_flag_ptr_ := false }).state_.toNat
        < State.COMPLETE.toNat := hlt
    rw [if_pos hlt2]
    simp only [cleanup, record, setState]
    rw [← hcb]
    by_cases h : y.error_cb_ = true <;> simp [h]
  · intro err f herr
    simp only [onConnect, if_pos herr, record]
    by_cases hcb : x.error_cb_ = true <;> simp [hcb]
  · intro data len t hfix hs hb hl ht
    simp [sendData, sendBufferEmpty, getState, hfix, hs, hb, hl, ht, transportSend, setState]
  · intro t hch hs hb ht
    have hlen : chunk_end_token.length = 5 := by decide
    have htok : chunk_end_token = "0\r\n\r\n".toList := rfl
    simp only [sendData, sendChunk, sendBufferEmpty, getState, hch, hs, hb, ht, transportSend,
      setState, hlen, htok]
    simp

/-- The witness of C10: a header flush that fails; a socket error while the headers are
being sent; a socket error while the response is being received, the parser not
reporting the message complete; a failed connect; a failed fixed-length write; a failed
end-of-body write. -/
theorem transport_failure_handling_witness :
    (sendRequestHeader scenarioA ⟨-1, [], 0⟩).state_ = .IN_ERROR
      ∧ (onError (setState scenarioA .SENDING_HEADER) (-1) ⟨[], 0, false, false⟩).x.state_
          = .IN_ERROR
      ∧ (onError (setState scenarioA .SENDING_HEADER) (-1) ⟨[], 0, false, false⟩).x.log
          = [.close, .error_cb KUMA_ERROR_SOCKERR]
      ∧ (onError (setState scenarioA .RECVING_RESPONSE) (-1)
            ⟨[.event .HTTP_HEADER_COMPLETE], 0, false, false⟩).x.state_ = .IN_ERROR
      ∧ (onConnect (setState scenarioA .CONNECTING) (-1) ⟨0, [], 0⟩).state_ = .CONNECTING
      ∧ (sendData fixedBody (some "abc".toList) 3 ⟨-1, [], 0⟩).2.state_ = .IN_ERROR
      ∧ (sendData chunkedBody none 0 ⟨-1, [], 0⟩).2.state_ = .IN_ERROR := by
  have h := transport_failure_handling scenarioA
  have h2 := (transport_failure_handling (setState scenarioA .SENDING_HEADER)).2.1 (-1)
    ⟨[], 0, false, false⟩ (by decide) (by decide)
  have h3 := (transport_failure_handling (setState scenarioA .RECVING_RESPONSE)).2.2.1 (-1)
    ⟨[.event .HTTP_HEADER_COMPLETE], 0, false, false⟩ rfl rfl rfl (by decide)
  have h4 := (transport_failure_handling (setState scenarioA .CONNECTING)).2.2.2.1 (-1)
    ⟨0, [], 0⟩ (by decide)
  have h5 := (transport_failure_handling fixedBody).2.2.2.2.1 "abc".toList 3 ⟨-1, [], 0⟩
    rfl rfl rfl (by decide) (by decide)
  have h6 := (transport_failure_handling chunkedBody).2.2.2.2.2 ⟨-1, [], 0⟩
    rfl rfl rfl (by decide)
  exact ⟨(h.1 ⟨-1, [], 0⟩ (by decide)).1, h2.2.1, h2.2.2, h3.2.1, h4.1, h5.2.1, h6.2.1⟩


/-! ## Parser events -/

/-- C11: `onHttpEvent` maps the parser events as follows, whatever the state.
`HTTP_HEADER_COMPLETE`: the header callback is invoked (when one is set), it finds the
state as it was, and nothing else changes.  `HTTP_COMPLETE`: the state is set to
`COMPLETE` and the response callback is then invoked (when one is set): the state the
callback finds is `COMPLETE`.  `HTTP_ERROR`: the transport is closed (the close finds the
state as it was), the state is set to `IN_ERROR`, and the error callback is then invoked
(when one is set) with `KUMA_ERROR_FAILED`: the state the callback finds is `IN_ERROR`.
Any other event leaves the exchange as it was, with no call made. -/
theorem onHttpEvent_mapping (x : HttpRequestImpl) :
    onHttpEvent x .HTTP_HEADER_COMPLETE
        = { x with log := x.log ++ (if x.header_cb_ then [Call.header_cb] else []),
                   seen := x.seen ++ (if x.header_cb_ then [snapshot x] else []) }
      ∧ onHttpEvent x .HTTP_COMPLETE
        = { x with state_ := .COMPLETE,
                   log := x.log ++ (if x.response_cb_ then [Call.response_cb] else []),
                   seen := x.seen ++ (if x.response_cb_
                     then [{ snapshot x with state_ := .COMPLETE }] else []) }
      ∧ onHttpEvent x .HTTP_ERROR
        = { x with state_ := .IN_ERROR,
                   log := x.log ++ [Call.close]
                     ++ (if x.error_cb_ then [Call.error_cb KUMA_ERROR_FAILED] else []),
                   seen := x.seen ++ [snapshot x]
                     ++ (if x.error_cb_ then [{ snapshot x with state_ := .IN_ERROR }] else []) }
      ∧ onHttpEvent x .OTHER = x := by
  refine ⟨?_, ?_, ?_, rfl⟩
  · cases x
    simp only [onHttpEvent, record, snapshot]
    split_ifs <;> simp
  · cases x
    simp only [onHttpEvent, record, setState, snapshot]
    split_ifs <;> simp
  · cases x
    simp only [onHttpEvent, record, setState, cleanup, snapshot]
    split_ifs <;> simp

/-- The events of C11 on an exchange whose response is being received: the response
callback and the error callback find the state already changed. -/
theorem onHttpEvent_mapping_witness :
    (onHttpEvent receiving .HTTP_COMPLETE).log = [.response_cb]
      ∧ (onHttpEvent receiving .HTTP_COMPLETE).seen = [⟨.COMPLETE, false, []⟩]
      ∧ (onHttpEvent receiving .HTTP_ERROR).log = [.close, .error_cb KUMA_ERROR_FAILED]
      ∧ (onHttpEvent receiving .HTTP_ERROR).seen
          = [⟨.RECVING_RESPONSE, false, []⟩, ⟨.IN_ERROR, false, []⟩] := by
  have h := onHttpEvent_mapping receiving
  refine ⟨?_, ?_, ?_, ?_⟩
  · rw [h.2.1]; decide
  · rw [h.2.1]; decide
  · rw [h.2.2.1]; decide
  · rw [h.2.2.1]; decide

/-! ## Header transmission -/

theorem sendRequestHeader_pending (x : HttpRequestImpl) (f : SendReply)
    (hf : f.ret = KUMA_ERROR_NOERR) (hb : f.send_buffer ≠ []) :
    (sendRequestHeader x f).state_ = .SENDING_HEADER
      ∧ (sendRequestHeader x f).send_buffer_ = f.send_buffer
      ∧ (sendRequestHeader x f).log
          = x.log ++ [.setDataCallback, .setEventCallback, .sendBufferedData] := by
  simp [sendRequestHeader, hf, hb, setState, record, transportSend, buildRequest,
    sendBufferEmpty]

/-- The calls with which `sendRequestHeader` begins, and what they find: the two parser
callbacks are set on the exchange as it was, and `sendBufferedData()` is called in state
`SENDING_HEADER` with the request `buildRequest` has put in the send buffer. -/
theorem sendRequestHeader_flush (x : HttpRequestImpl) (f : SendReply) :
    ∃ (calls : List Call) (later : List Snapshot),
      (sendRequestHeader x f).log
          = x.log ++ [.setDataCallback, .setEventCallback, .sendBufferedData] ++ calls
        ∧ (sendRequestHeader x f).seen
          = x.seen ++ [snapshot x, snapshot x,
              ⟨.SENDING_HEADER, x.destroy_flag_ptr_, (buildRequest x).send_buffer_⟩] ++ later
        ∧ calls.length = later.length := by
  have hb : buildRequest (record (record { x with body_bytes_sent_ := 0 } .setDataCallback)
        .setEventCallback)
      = { record (record { x with body_bytes_sent_ := 0 } .setDataCallback) .setEventCallback with
          send_offset_ := 0
          send_buffer_ := (buildRequest x).send_buffer_ } := rfl
  simp only [sendRequestHeader, hb]
  generalize (buildRequest x).send_buffer_ = request
  simp only [setState, record, transportSend, cleanup, snapshot]
  split_ifs
  · exact ⟨[.close, .error_cb KUMA_ERROR_SOCKERR],
      [⟨.SENDING_HEADER, x.destroy_flag_ptr_, f.send_buffer⟩,
       ⟨.IN_ERROR, x.destroy_flag_ptr_, f.send_buffer⟩], by simp, by simp, rfl⟩
  · exact ⟨[.close], [⟨.SENDING_HEADER, x.destroy_flag_ptr_, f.send_buffer⟩],
      by simp, by simp, rfl⟩
  · exact ⟨[], [], by simp, by simp, rfl⟩
  · exact ⟨[.write_cb 0], [⟨.SENDING_BODY, x.destroy_flag_ptr_, f.send_buffer⟩],
      by simp, by simp, rfl⟩
  · exact ⟨[], [], by simp, by simp, rfl⟩
  · exact ⟨[], [], by simp, by simp, rfl⟩

/-- C13: when `err` is not `KUMA_ERROR_NOERR`, `onConnect` invokes the error callback
(when one is set) with `err` and changes nothing else: the state and every other
member are as before, the callback finds them so, and no write on the transport is
made.  When `err` is `KUMA_ERROR_NOERR` it does what `sendRequestHeader` does: the data and
event callbacks of the parser are set, the request is built into the send buffer, the
state is set to `SENDING_HEADER`, and the flush is then called: `sendBufferedData()`
finds the state `SENDING_HEADER` and the send buffer holding the request line and the
headers.  The exchange is left in `SENDING_HEADER` when the flush succeeds without
emptying the send buffer. -/
theorem onConnect_outcomes (x : HttpRequestImpl) (err : Int) (f : SendReply) :
    (err ≠ KUMA_ERROR_NOERR →
        onConnect x err f
          = { x with log := x.log ++ (if x.error_cb_ then [Call.error_cb err] else []),
                     seen := x.seen ++ (if x.error_cb_ then [snapshot x] else []) }
        ∧ (onConnect x err f).state_ = x.state_
        ∧ transportWrites (onConnect x err f) = transportWrites x)
      ∧ (err = KUMA_ERROR_NOERR →
        onConnect x err f = sendRequestHeader x f
        ∧ (∃ (calls : List Call) (later : List Snapshot),
            (onConnect x err f).log
                = x.log ++ [.setDataCallback, .setEventCallback, .sendBufferedData] ++ calls
            ∧ (onConnect x err f).seen
                = x.seen ++ [snapshot x, snapshot x,
                    ⟨.SENDING_HEADER, x.destroy_flag_ptr_, (buildRequest x).send_buffer_⟩] ++ later
            ∧ calls.length = later.length)
        ∧ (buildRequest x).send_buffer_
            = x.method_ ++ " ".toList ++ x.uri_.path
              ++ (if x.uri_.query ≠ [] then "?".toList ++ x.uri_.query else [])
              ++ (if x.uri_.fragment ≠ [] then "#".toList ++ x.uri_.fragment else [])
              ++ " ".toList ++ x.version_ ++ "\r\n".toList
              ++ headerBlock x.header_map_ ++ "\r\n".toList
        ∧ (f.ret = KUMA_ERROR_NOERR → f.send_buffer ≠ [] →
            (onConnect x err f).state_ = .SENDING_HEADER
            ∧ (onConnect x err f).send_buffer_ = f.send_buffer)) := by
  refine ⟨?_, ?_⟩
  · intro herr
    cases x
    simp only [onConnect, if_pos herr, record, transportWrites, snapshot]
    split_ifs <;> simp [Call.isWrite]
  · intro herr
    have h0 : onConnect x err f = sendRequestHeader x f := by
      simp [onConnect, herr]
    refine ⟨h0, ?_, buildRequest_send_buffer x, ?_⟩
    · rw [h0]
      exact sendRequestHeader_flush x f
    · intro hf hb
      rw [h0]
      exact ⟨(sendRequestHeader_pending x f hf hb).1, (sendRequestHeader_pending x f hf hb).2.1⟩

/-- The witness of C13: a failed connect, and a successful one on the exchange of
scenario A whose header flush leaves bytes in the send buffer: the flush is called in
`SENDING_HEADER` on the request "GET / HTTP/1.1\r\n\r\n". -/
theorem onConnect_outcomes_witness :
    (onConnect (setState scenarioA .CONNECTING) (-1) ⟨0, [], 0⟩).log = [Call.error_cb (-1)]
      ∧ (onConnect (setState scenarioA .CONNECTING) (-1) ⟨0, [], 0⟩).seen
          = [⟨.CONNECTING, false, []⟩]
      ∧ (onConnect (setState scenarioA .CONNECTING) (-1) ⟨0, [], 0⟩).state_ = .CONNECTING
      ∧ (onConnect (setState scenarioA .CONNECTING) 0 ⟨0, "\r\n".toList, 0⟩).state_
          = .SENDING_HEADER
      ∧ (onConnect (setState scenarioA .CONNECTING) 0 ⟨0, "\r\n".toList, 0⟩).log
          = [.setDataCallback, .setEventCallback, .sendBufferedData]
      ∧ (onConnect (setState scenarioA .CONNECTING) 0 ⟨0, "\r\n".toList, 0⟩).seen
          = [⟨.CONNECTING, false, []⟩, ⟨.CONNECTING, false, []⟩,
             ⟨.SENDING_HEADER, false, "GET / HTTP/1.1\r\n\r\n".toList⟩] := by
  have h := (onConnect_outcomes (setState scenarioA .CONNECTING) (-1) ⟨0, [], 0⟩).1 (by decide)
  have h2 := (onConnect_outcomes (setState scenarioA .CONNECTING) 0 ⟨0, "\r\n".toList, 0⟩).2 rfl
  refine ⟨?_, ?_, h.2.1, (h2.2.2.2 rfl (by decide)).1, ?_, ?_⟩
  · rw [h.1]; decide
  · rw [h.1]; decide
  · rw [h2.1]; decide
  · rw [h2.1]; decide

theorem onHttpData_frame (x : HttpRequestImpl) (d : Bytes) (len : Nat) :
    (onHttpData x d len).destroy_flag_ptr_ = x.destroy_flag_ptr_
      ∧ (onHttpData x d len).state_ = x.state_
      ∧ errorCalls (onHttpData x d len) = errorCalls x := by
  simp only [onHttpData, record, errorCalls]
  split_ifs <;> simp [Call.isErrorCb]

theorem onHttpEvent_destroy_flag (x : HttpRequestImpl) (ev : HttpEvent) :
    (onHttpEvent x ev).destroy_flag_ptr_ = x.destroy_flag_ptr_ := by
  cases ev <;> simp only [onHttpEvent, record, setState, cleanup] <;> split_ifs <;> rfl

theorem deliver_destroy_flag (x : HttpRequestImpl) (cbs : List ParserCallback) :
    (deliver x cbs).destroy_flag_ptr_ = x.destroy_flag_ptr_ := by
  induction cbs generalizing x with
  | nil => rfl
  | cons cb rest ih =>
    cases cb with
    | data d len => rw [deliver, ih, (onHttpData_frame x d len).1]
    | event ev => rw [deliver, ih, onHttpEvent_destroy_flag]

theorem duringParser_registered (x : HttpRequestImpl) (call : Call) (p : ParserReply) :
    (duringParser x call p).destroy_flag_ptr_ = true := by
  unfold duringParser
  rw [deliver_destroy_flag]
  rfl

/-- Callbacks among which there is no `HTTP_ERROR` invoke no error callback and do not
set the state to `IN_ERROR`. -/
theorem deliver_without_error (x : HttpRequestImpl) (cbs : List ParserCallback)
    (hcbs : ∀ cb ∈ cbs, cb.isError = false) :
    errorCalls (deliver x cbs) = errorCalls x
      ∧ ((deliver x cbs).state_ = .IN_ERROR → x.state_ = .IN_ERROR) := by
  induction cbs generalizing x with
  | nil => exact ⟨rfl, id⟩
  | cons cb rest ih =>
    have hrest : ∀ c ∈ rest, c.isError = false := fun c hc => hcbs c (List.mem_cons_of_mem cb hc)
    have hcb := hcbs cb (List.mem_cons_self cb rest)
    cases cb with
    | data d len =>
      have h := ih (onHttpData x d len) hrest
      rw [deliver]
      exact ⟨h.1.trans (onHttpData_frame x d len).2.2,
        fun hs => (onHttpData_frame x d len).2.1 ▸ h.2 hs⟩
    | event ev =>
      have h := ih (onHttpEvent x ev) hrest
      rw [deliver]
      cases ev with
      | HTTP_ERROR => exact absurd hcb (by decide)
      | HTTP_HEADER_COMPLETE =>
        refine ⟨h.1.trans ?_, fun hs => ?_⟩
        · simp only [onHttpEvent, record, errorCalls]
          split_ifs <;> simp [Call.isErrorCb]
        · have := h.2 hs
          simp only [onHttpEvent, record] at this
          split_ifs at this <;> exact this
      | HTTP_COMPLETE =>
        refine ⟨h.1.trans ?_, fun hs => ?_⟩
        · simp only [onHttpEvent, record, setState, errorCalls]
          split_ifs <;> simp [Call.isErrorCb]
        · have := h.2 hs
          simp only [onHttpEvent, record, setState] at this
          split_ifs at this
      | OTHER => exact ⟨h.1, h.2⟩

theorem onError_destroyed (x : HttpRequestImpl) (err : Int) (p : ParserReply)
    (hs : x.state_ = .RECVING_RESPONSE) (hd : p.destroys = true) :
    onError x err p = ⟨true, duringParser x .setEOF p⟩ := by
  have hreg := duringParser_registered x .setEOF p
  unfold duringParser at hreg
  simp only [onError, getState, if_pos hs, hd, destructor, Bool.true_and, hreg, if_true,
    duringParser]

theorem onError_completed (x : HttpRequestImpl) (err : Int) (p : ParserReply)
    (hs : x.state_ = .RECVING_RESPONSE) (hd : p.destroys = false) (hc : p.completed = true) :
    onError x err p = ⟨false, cleanup (atStateTest x p)⟩ := by
  simp only [onError, getState, if_pos hs, hd, hc, Bool.false_and, Bool.false_eq_true,
    if_false, if_true, atStateTest, duringParser]

theorem onError_tested (x : HttpRequestImpl) (err : Int) (p : ParserReply)
    (hd : p.destroys = false) (hc : ¬ (x.state_ = .RECVING_RESPONSE ∧ p.completed = true)) :
    onError x err p
      = if (atStateTest x p).state_.toNat < State.COMPLETE.toNat then
          ⟨false, if (atStateTest x p).error_cb_
            then record (setState (cleanup (atStateTest x p)) .IN_ERROR)
              (.error_cb KUMA_ERROR_SOCKERR)
            else setState (cleanup (atStateTest x p)) .IN_ERROR⟩
        else ⟨false, setState (cleanup (atStateTest x p)) .CLOSED⟩ := by
  by_cases hs : x.state_ = .RECVING_RESPONSE
  · have hc2 : p.completed = false := by
      cases h : p.completed with
      | true => exact absurd ⟨hs, h⟩ hc
      | false => rfl
    simp only [onError, getState, if_pos hs, hd, hc2, Bool.false_and, Bool.false_eq_true,
      if_false, atStateTest, duringParser]
    rfl
  · simp only [onError, getState, if_neg hs, atStateTest]
    rfl

/-- C12: a transport error delivered to `onError`, the exchange not being destroyed.  In
`RECVING_RESPONSE` with `setEOF()` reporting the message complete: the transport is
closed and `onError` does nothing else (the exchange is the one the parser call left,
with the registration cleared and the close logged); when the parser raised no
`HTTP_ERROR` during the call, no error callback has been invoked and the state is not
`IN_ERROR`.  Otherwise the transport is closed and the current state is tested: earlier
than `COMPLETE`, the state becomes `IN_ERROR` and the error callback is invoked exactly
once (when one is set) with `KUMA_ERROR_SOCKERR`; at or past `COMPLETE`, the state
becomes `CLOSED` and no callback is invoked. -/
theorem onError_outcomes (x : HttpRequestImpl) (err : Int) (p : ParserReply)
    (hlive : p.destroys = false) :
    (onError x err p).destroyed = false
      ∧ (x.state_ = .RECVING_RESPONSE → p.completed = true →
          (onError x err p).x = cleanup (atStateTest x p)
          ∧ (onError x err p).x.log = (atStateTest x p).log ++ [.close]
          ∧ (onError x err p).x.state_ = (atStateTest x p).state_
          ∧ ((∀ cb ∈ p.callbacks, cb.isError = false) →
              errorCalls (onError x err p).x = errorCalls x
              ∧ (onError x err p).x.state_ ≠ .IN_ERROR))
      ∧ (¬ (x.state_ = .RECVING_RESPONSE ∧ p.completed = true) →
          (atStateTest x p).state_.toNat < State.COMPLETE.toNat →
          (onError x err p).x.state_ = .IN_ERROR
          ∧ (onError x err p).x.log
              = (atStateTest x p).log ++ [.close]
                ++ (if (atStateTest x p).error_cb_ then [.error_cb KUMA_ERROR_SOCKERR] else []))
      ∧ (¬ (x.state_ = .RECVING_RESPONSE ∧ p.completed = true) →
          State.COMPLETE.toNat ≤ (atStateTest x p).state_.toNat →
          (onError x err p).x.state_ = .CLOSED
          ∧ (onError x err p).x.log = (atStateTest x p).log ++ [.close]) := by
  refine ⟨?_, ?_, ?_, ?_⟩
  · by_cases hc : x.state_ = .RECVING_RESPONSE ∧ p.completed = true
    · rw [onError_completed x err p hc.1 hlive hc.2]
    · rw [onError_tested x err p hlive hc]
      split_ifs <;> rfl
  · intro hs hc
    rw [onError_completed x err p hs hlive hc]
    refine ⟨rfl, rfl, rfl, ?_⟩
    intro hcbs
    have h := deliver_without_error (record { x with destroy_flag_ptr_ := true } .setEOF)
      p.callbacks hcbs
    have hstate : (atStateTest x p).state_ = (duringParser x .setEOF p).state_ := by
      simp [atStateTest, hs]
    have herr : errorCalls (cleanup (atStateTest x p)) = errorCalls (duringParser x .setEOF p) := by
      simp [atStateTest, hs, errorCalls, cleanup, record, Call.isErrorCb]
    refine ⟨?_, ?_⟩
    · show errorCalls (cleanup (atStateTest x p)) = errorCalls x
      rw [herr]
      unfold duringParser
      rw [h.1]
      simp [errorCalls, record, Call.isErrorCb]
    · show (atStateTest x p).state_ ≠ .IN_ERROR
      rw [hstate]
      intro hbad
      have := h.2 hbad
      simp [record, hs] at this
  · intro hc hlt
    rw [onError_tested x err p hlive hc, if_pos hlt]
    by_cases hcb : (atStateTest x p).error_cb_ = true <;>
      simp [hcb, record, setState, cleanup]
  · intro hc hge
    rw [onError_tested x err p hlive hc, if_neg (not_lt.mpr hge)]
    simp [record, setState, cleanup]

/-- The witness of C12: in `RECVING_RESPONSE`, an end of stream that completes the message
(the parser raises `HTTP_COMPLETE`) and one that does not; and an error after the
response is complete. -/
theorem onError_outcomes_witness :
    (onError receiving (-1) ⟨[.event .HTTP_COMPLETE], 0, true, false⟩).x.state_ = .COMPLETE
      ∧ (onError receiving (-1) ⟨[.event .HTTP_COMPLETE], 0, true, false⟩).x.log
          = [.setEOF, .response_cb, .close]
      ∧ (onError receiving (-1) ⟨[], 0, false, false⟩).x.state_ = .IN_ERROR
      ∧ (onError receiving (-1) ⟨[], 0, false, false⟩).x.log
          = [.setEOF, .close, .error_cb KUMA_ERROR_SOCKERR]
      ∧ (onError (setState scenarioA .COMPLETE) (-1) ⟨[], 0, false, false⟩).x.state_ = .CLOSED
      ∧ (onError (setState scenarioA .COMPLETE) (-1) ⟨[], 0, false, false⟩).x.log = [.close] := by
  have h1 := (onError_outcomes receiving (-1) ⟨[.event .HTTP_COMPLETE], 0, true, false⟩ rfl).2.1
    rfl rfl
  have h2 := (onError_outcomes receiving (-1) ⟨[], 0, false, false⟩ rfl).2.2.1
    (by decide) (by decide)
  have h3 := (onError_outcomes (setState scenarioA .COMPLETE) (-1) ⟨[], 0, false, false⟩
    rfl).2.2.2 (by decide) (by decide)
  exact ⟨h1.2.2.1, h1.2.1, h2.1, h2.2, h3.1, h3.2⟩

theorem handleInputData_destroyed (x : HttpRequestImpl) (src : Bytes) (len : Nat)
    (p : ParserReply) (hd : p.destroys = true) :
    handleInputData x src len p
      = ⟨KUMA_ERROR_DESTROYED, true, false, duringParser x (.parse src len) p⟩ := by
  have hreg := duringParser_registered x (.parse src len) p
  unfold duringParser at hreg
  simp only [handleInputData, hd, destructor, Bool.true_and, hreg, if_true, duringParser]

theorem handleInputData_live (x : HttpRequestImpl) (src : Bytes) (len : Nat)
    (p : ParserReply) (hd : p.destroys = false) :
    handleInputData x src len p
      = if (duringParser x (.parse src len) p).state_ = .IN_ERROR
            ∨ (duringParser x (.parse src len) p).state_ = .CLOSED then
          ⟨KUMA_ERROR_FAILED, false, false,
            { duringParser x (.parse src len) p with destroy_flag_ptr_ := false }⟩
        else
          ⟨KUMA_ERROR_NOERR, false, decide (toSizeT p.bytes_used ≠ len),
            { duringParser x (.parse src len) p with destroy_flag_ptr_ := false }⟩ := by
  simp only [handleInputData, hd, Bool.false_and, Bool.false_eq_true, if_false, getState,
    duringParser]

/-- The calls a parser callback makes find the registration as the exchange holds it. -/
theorem onHttpData_seen (x : HttpRequestImpl) (d : Bytes) (len : Nat) :
    ∃ (calls : List Call) (inside : List Snapshot),
      (onHttpData x d len).log = x.log ++ calls
        ∧ (onHttpData x d len).seen = x.seen ++ inside
        ∧ calls.length = inside.length
        ∧ ∀ s ∈ inside, s.destroy_flag_ptr_ = x.destroy_flag_ptr_ := by
  simp only [onHttpData, record, snapshot]
  split_ifs
  · exact ⟨[.data_cb d len], [⟨x.state_, x.destroy_flag_ptr_, x.send_buffer_⟩], rfl, rfl, rfl,
      by simp⟩
  · exact ⟨[], [], by simp, by simp, rfl, by simp⟩

theorem onHttpEvent_seen (x : HttpRequestImpl) (ev : HttpEvent) :
    ∃ (calls : List Call) (inside : List Snapshot),
      (onHttpEvent x ev).log = x.log ++ calls
        ∧ (onHttpEvent x ev).seen = x.seen ++ inside
        ∧ calls.length = inside.length
        ∧ ∀ s ∈ inside, s.destroy_flag_ptr_ = x.destroy_flag_ptr_ := by
  cases ev with
  | HTTP_HEADER_COMPLETE =>
    simp only [onHttpEvent, record, snapshot]
    split_ifs
    · exact ⟨[.header_cb], [⟨x.state_, x.destroy_flag_ptr_, x.send_buffer_⟩], rfl, rfl, rfl,
        by simp⟩
    · exact ⟨[], [], by simp, by simp, rfl, by simp⟩
  | HTTP_COMPLETE =>
    simp only [onHttpEvent, record, setState, snapshot]
    split_ifs
    · exact ⟨[.response_cb], [⟨.COMPLETE, x.destroy_flag_ptr_, x.send_buffer_⟩], rfl, rfl, rfl,
        by simp⟩
    · exact ⟨[], [], by simp, by simp, rfl, by simp⟩
  | HTTP_ERROR =>
    simp only [onHttpEvent, record, setState, cleanup, snapshot]
    split_ifs
    · exact ⟨[.close, .error_cb KUMA_ERROR_FAILED],
        [⟨x.state_, x.destroy_flag_ptr_, x.send_buffer_⟩,
         ⟨.IN_ERROR, x.destroy_flag_ptr_, x.send_buffer_⟩], by simp, by simp, rfl, by simp⟩
    · exact ⟨[.close], [⟨x.state_, x.destroy_flag_ptr_, x.send_buffer_⟩], rfl, rfl, rfl,
        by simp⟩
  | OTHER => exact ⟨[], [], by simp [onHttpEvent], by simp [onHttpEvent], rfl, by simp⟩

theorem deliver_seen (x : HttpRequestImpl) (cbs : List ParserCallback) :
    ∃ (calls : List Call) (inside : List Snapshot),
      (deliver x cbs).log = x.log ++ calls
        ∧ (deliver x cbs).seen = x.seen ++ inside
        ∧ calls.length = inside.length
        ∧ ∀ s ∈ inside, s.destroy_flag_ptr_ = x.destroy_flag_ptr_ := by
  induction cbs generalizing x with
  | nil => exact ⟨[], [], by simp [deliver], by simp [deliver], rfl, by simp⟩
  | cons cb rest ih =>
    cases cb with
    | data d len =>
      obtain ⟨c1, i1, hl1, hs1, hn1, hf1⟩ := onHttpData_seen x d len
      obtain ⟨c2, i2, hl2, hs2, hn2, hf2⟩ := ih (onHttpData x d len)
      refine ⟨c1 ++ c2, i1 ++ i2, ?_, ?_, ?_, ?_⟩
      · rw [deliver, hl2, hl1, List.append_assoc]
      · rw [deliver, hs2, hs1, List.append_assoc]
      · simp [hn1, hn2]
      · intro s hs
        rcases List.mem_append.mp hs with h | h
        · exact hf1 s h
        · rw [hf2 s h, (onHttpData_frame x d len).1]
    | event ev =>
      obtain ⟨c1, i1, hl1, hs1, hn1, hf1⟩ := onHttpEvent_seen x ev
      obtain ⟨c2, i2, hl2, hs2, hn2, hf2⟩ := ih (onHttpEvent x ev)
      refine ⟨c1 ++ c2, i1 ++ i2, ?_, ?_, ?_, ?_⟩
      · rw [deliver, hl2, hl1, List.append_assoc]
      · rw [deliver, hs2, hs1, List.append_assoc]
      · simp [hn1, hn2]
      · intro s hs
        rcases List.mem_append.mp hs with h | h
        · exact hf1 s h
        · rw [hf2 s h, onHttpEvent_destroy_flag]

/-- The parser call of a guarded operation is made with the flag registered, and so is
every call made on the transport or the owner while it runs. -/
theorem duringParser_seen (x : HttpRequestImpl) (call : Call) (p : ParserReply) :
    ∃ (calls : List Call) (inside : List Snapshot),
      (duringParser x call p).log = x.log ++ call :: calls
        ∧ (duringParser x call p).seen
            = x.seen ++ ⟨x.state_, true, x.send_buffer_⟩ :: inside
        ∧ calls.length = inside.length
        ∧ ∀ s ∈ inside, s.destroy_flag_ptr_ = true := by
  obtain ⟨c, i, hl, hs, hn, hf⟩ :=
    deliver_seen (record { x with destroy_flag_ptr_ := true } call) p.callbacks
  refine ⟨c, i, ?_, ?_, hn, hf⟩
  · unfold duringParser
    rw [hl]
    simp [record]
  · unfold duringParser
    rw [hs]
    simp [record, snapshot]

theorem onError_not_receiving (x : HttpRequestImpl) (err : Int) (p : ParserReply)
    (hs : x.state_ ≠ .RECVING_RESPONSE) :
    onError x err p
      = if x.state_.toNat < State.COMPLETE.toNat then
          ⟨false, if x.error_cb_
            then record (setState (cleanup x) .IN_ERROR) (.error_cb KUMA_ERROR_SOCKERR)
            else setState (cleanup x) .IN_ERROR⟩
        else ⟨false, setState (cleanup x) .CLOSED⟩ := by
  simp only [onError, getState, if_neg hs]
  rfl

/-- What follows the test of the state in `onError`, on an exchange with no registration:
the transport is closed and the callback, if any, is invoked with no registration. -/
theorem onError_tail_seen (y : HttpRequestImpl) (hy : y.destroy_flag_ptr_ = false)
    (r : Guarded)
    (hr : r = if y.state_.toNat < State.COMPLETE.toNat then
          ⟨false, if y.error_cb_
            then record (setState (cleanup y) .IN_ERROR) (.error_cb KUMA_ERROR_SOCKERR)
            else setState (cleanup y) .IN_ERROR⟩
        else ⟨false, setState (cleanup y) .CLOSED⟩) :
    r.destroyed = false ∧ r.x.destroy_flag_ptr_ = false
      ∧ ∃ (calls : List Call) (later : List Snapshot),
          r.x.log = y.log ++ calls ∧ r.x.seen = y.seen ++ later
            ∧ calls.length = later.length ∧ Call.close ∈ calls
            ∧ ∀ s ∈ later, s.destroy_flag_ptr_ = false := by
  subst hr
  simp only [record, setState, cleanup, snapshot]
  split_ifs
  · exact ⟨rfl, hy, [.close, .error_cb KUMA_ERROR_SOCKERR],
      [⟨y.state_, y.destroy_flag_ptr_, y.send_buffer_⟩,
       ⟨.IN_ERROR, y.destroy_flag_ptr_, y.send_buffer_⟩],
      by simp, by simp, rfl, by simp, by simp [hy]⟩
  · exact ⟨rfl, hy, [.close], [⟨y.state_, y.destroy_flag_ptr_, y.send_buffer_⟩],
      rfl, rfl, rfl, by simp, by simp [hy]⟩
  · exact ⟨rfl, hy, [.close], [⟨y.state_, y.destroy_flag_ptr_, y.send_buffer_⟩],
      rfl, rfl, rfl, by simp, by simp [hy]⟩

/-- After `setEOF()` has returned without the exchange being destroyed, every call
`onError` makes finds the registration cleared. -/
theorem onError_after_setEOF (x : HttpRequestImpl) (err : Int) (p : ParserReply)
    (hs : x.state_ = .RECVING_RESPONSE) (hd : p.destroys = false) :
    (onError x err p).destroyed = false ∧ (onError x err p).x.destroy_flag_ptr_ = false
      ∧ ∃ (calls : List Call) (later : List Snapshot),
          (onError x err p).x.log = (duringParser x .setEOF p).log ++ calls
            ∧ (onError x err p).x.seen = (duringParser x .setEOF p).seen ++ later
            ∧ calls.length = later.length ∧ Call.close ∈ calls
            ∧ ∀ s ∈ later, s.destroy_flag_ptr_ = false := by
  have hat : atStateTest x p = { duringParser x .setEOF p with destroy_flag_ptr_ := false } := by
    simp [atStateTest, hs]
  by_cases hc : p.completed = true
  · rw [onError_completed x err p hs hd hc, hat]
    refine ⟨rfl, rfl, [.close],
      [⟨(duringParser x .setEOF p).state_, false, (duringParser x .setEOF p).send_buffer_⟩],
      rfl, rfl, rfl, by simp, by simp⟩
  · have h := onError_tail_seen (atStateTest x p) (by rw [hat]) (onError x err p)
      (onError_tested x err p hd (fun h => hc h.2))
    rw [hat] at h
    exact h

theorem handleInputData_alive_flag (x : HttpRequestImpl) (src : Bytes) (len : Nat)
    (p : ParserReply) (h : (handleInputData x src len p).destroyed = false) :
    (handleInputData x src len p).x.destroy_flag_ptr_ = false := by
  cases hd : p.destroys with
  | true =>
    rw [handleInputData_destroyed x src len p hd] at h
    exact Bool.noConfusion h
  | false =>
    rw [handleInputData_live x src len p hd]
    split_ifs <;> rfl

theorem onError_alive_flag (x : HttpRequestImpl) (err : Int) (p : ParserReply)
    (hnull : x.destroy_flag_ptr_ = false) (h : (onError x err p).destroyed = false) :
    (onError x err p).x.destroy_flag_ptr_ = false := by
  by_cases hs : x.state_ = .RECVING_RESPONSE
  · cases hd : p.destroys with
    | true =>
      rw [onError_destroyed x err p hs hd] at h
      exact Bool.noConfusion h
    | false => exact (onError_after_setEOF x err p hs hd).2.1
  · exact (onError_tail_seen x hnull (onError x err p) (onError_not_receiving x err p hs)).2.1

/-- Between guarded operations no registration is active. -/
theorem runGuarded_noRegistration (x : HttpRequestImpl) (ops : List GuardedOp)
    (hnull : x.destroy_flag_ptr_ = false) (y : HttpRequestImpl)
    (hy : runGuarded x ops = some y) : noRegistration y = true := by
  induction ops generalizing x with
  | nil =>
    simp only [runGuarded, Option.some.injEq] at hy
    rw [← hy]
    simp [noRegistration, hnull]
  | cons op rest ih =>
    cases op with
    | handleInputData src len p =>
      simp only [runGuarded] at hy
      by_cases hdes : (handleInputData x src len p).destroyed = true
      · rw [if_pos hdes] at hy
        exact absurd hy (by simp)
      · rw [if_neg hdes] at hy
        exact ih _ (handleInputData_alive_flag x src len p (by simpa using hdes)) hy
    | onError err p =>
      simp only [runGuarded] at hy
      by_cases hdes : (onError x err p).destroyed = true
      · rw [if_pos hdes] at hy
        exact absurd hy (by simp)
      · rw [if_neg hdes] at hy
        exact ih _ (onError_alive_flag x err p hnull (by simpa using hdes)) hy

/-- C17: the guard of `handleInputData` and of `onError` in `RECVING_RESPONSE`, entered with
no registration active.  The parser call (`parse`, `setEOF`) is made with the flag of
the operation registered, and every call made while it runs finds the registration.
When the owner destroys the exchange during the call, the destructor sets the
registered flag and the operation returns at once, `handleInputData` with
`KUMA_ERROR_DESTROYED`: the members and the history are those the parser call left,
nothing is written or called after it and the value returned does not depend on them.
When the exchange is not destroyed, the flag of the operation stays clear and the
registration is cleared before the operation goes on: `handleInputData` makes no
further call and leaves `destroy_flag_ptr_` null, and every call `onError` makes after
`setEOF()` (the close of the transport is one) finds `destroy_flag_ptr_` null.  So along
every sequence of guarded operations the assertion `nullptr == destroy_flag_ptr_` holds
on entry: a flag is never registered while another registration is active. -/
theorem reentrancy_guard (x : HttpRequestImpl) (src : Bytes) (len : Nat) (err : Int)
    (p : ParserReply) (hnull : x.destroy_flag_ptr_ = false) :
    (∀ call : Call, call = .parse src len ∨ call = .setEOF →
        (duringParser x call p).destroy_flag_ptr_ = true
        ∧ ∃ (calls : List Call) (inside : List Snapshot),
            (duringParser x call p).log = x.log ++ call :: calls
            ∧ (duringParser x call p).seen
                = x.seen ++ ⟨x.state_, true, x.send_buffer_⟩ :: inside
            ∧ calls.length = inside.length
            ∧ ∀ s ∈ inside, s.destroy_flag_ptr_ = true)
      ∧ (p.destroys = true →
          destructor (duringParser x (.parse src len) p) = true
          ∧ handleInputData x src len p
              = ⟨KUMA_ERROR_DESTROYED, true, false, duringParser x (.parse src len) p⟩)
      ∧ (p.destroys = true → x.state_ = .RECVING_RESPONSE →
          destructor (duringParser x .setEOF p) = true
          ∧ onError x err p = ⟨true, duringParser x .setEOF p⟩)
      ∧ (p.destroys = false →
          (handleInputData x src len p).destroyed = false
          ∧ (handleInputData x src len p).ret ≠ KUMA_ERROR_DESTROYED
          ∧ (handleInputData x src len p).x
              = { duringParser x (.parse src len) p with destroy_flag_ptr_ := false }
          ∧ (handleInputData x src len p).x.log = (duringParser x (.parse src len) p).log
          ∧ (handleInputData x src len p).x.seen = (duringParser x (.parse src len) p).seen
          ∧ (handleInputData x src len p).x.destroy_flag_ptr_ = false)
      ∧ (p.destroys = false → x.state_ = .RECVING_RESPONSE →
          (onError x err p).destroyed = false
          ∧ (onError x err p).x.destroy_flag_ptr_ = false
          ∧ ∃ (calls : List Call) (later : List Snapshot),
              (onError x err p).x.log = (duringParser x .setEOF p).log ++ calls
              ∧ (onError x err p).x.seen = (duringParser x .setEOF p).seen ++ later
              ∧ calls.length = later.length ∧ Call.close ∈ calls
              ∧ ∀ s ∈ later, s.destroy_flag_ptr_ = false)
      ∧ (∀ (ops : List GuardedOp) (y : HttpRequestImpl),
          runGuarded x ops = some y → noRegistration y = true) := by
  refine ⟨?_, ?_, ?_, ?_, ?_, ?_⟩
  · intro call _
    exact ⟨duringParser_registered _ _ _, duringParser_seen x call p⟩
  · intro hd
    exact ⟨duringParser_registered _ _ _, handleInputData_destroyed x src len p hd⟩
  · intro hd hs
    exact ⟨duringParser_registered _ _ _, onError_destroyed x err p hs hd⟩
  · intro hd
    have hne1 : KUMA_ERROR_FAILED ≠ KUMA_ERROR_DESTROYED := by decide
    have hne2 : KUMA_ERROR_NOERR ≠ KUMA_ERROR_DESTROYED := by decide
    rw [handleInputData_live x src len p hd]
    split_ifs
    · exact ⟨rfl, hne1, rfl, rfl, rfl, rfl⟩
    · exact ⟨rfl, hne2, rfl, rfl, rfl, rfl⟩
  · intro hd hs
    exact onError_after_setEOF x err p hs hd
  · intro ops y hy
    exact runGuarded_noRegistration x ops hnull y hy

/-- The witness of C17: input during which the owner destroys the exchange from the
response callback; a socket error in `RECVING_RESPONSE` that leaves it alive, where the
close and the error callback find no registration; and two guarded operations in a
row. -/
theorem reentrancy_guard_witness :
    (handleInputData receiving "HTTP/1.1 200 OK\r\n\r\n".toList 19
        ⟨[.event .HTTP_HEADER_COMPLETE, .event .HTTP_COMPLETE], 19, false, true⟩).ret
        = KUMA_ERROR_DESTROYED
      ∧ (handleInputData receiving "HTTP/1.1 200 OK\r\n\r\n".toList 19
          ⟨[.event .HTTP_HEADER_COMPLETE, .event .HTTP_COMPLETE], 19, false, true⟩).x.log
        = [.parse "HTTP/1.1 200 OK\r\n\r\n".toList 19, .header_cb, .response_cb]
      ∧ (handleInputData receiving "HTTP/1.1 200 OK\r\n\r\n".toList 19
          ⟨[.event .HTTP_HEADER_COMPLETE, .event .HTTP_COMPLETE], 19, false, true⟩).x.seen
        = [⟨.RECVING_RESPONSE, true, []⟩, ⟨.RECVING_RESPONSE, true, []⟩, ⟨.COMPLETE, true, []⟩]
      ∧ (onError receiving (-1) ⟨[], 0, false, false⟩).x.log
        = [.setEOF, .close, .error_cb KUMA_ERROR_SOCKERR]
      ∧ (onError receiving (-1) ⟨[], 0, false, false⟩).x.seen
        = [⟨.RECVING_RESPONSE, true, []⟩, ⟨.RECVING_RESPONSE, false, []⟩, ⟨.IN_ERROR, false, []⟩]
      ∧ (∀ y, runGuarded receiving
            [.handleInputData "HTTP/1.1 200 OK\r\n\r\n".toList 19
              ⟨[.event .HTTP_HEADER_COMPLETE], 19, false, false⟩,
             .onError (-1) ⟨[], 0, false, false⟩] = some y → noRegistration y = true) := by
  have h1 := (reentrancy_guard receiving "HTTP/1.1 200 OK\r\n\r\n".toList 19 (-1)
    ⟨[.event .HTTP_HEADER_COMPLETE, .event .HTTP_COMPLETE], 19, false, true⟩ rfl).2.1 rfl
  have h2 := (reentrancy_guard receiving [] 0 (-1) ⟨[], 0, false, false⟩ rfl).2.2.2.2.1 rfl rfl
  have h3 := (reentrancy_guard receiving [] 0 (-1) ⟨[], 0, false, false⟩ rfl).2.2.2.2.2
  refine ⟨?_, ?_, ?_, ?_, ?_, fun y hy => h3 _ y hy⟩
  · rw [h1.2]
  · rw [h1.2]; decide
  · rw [h1.2]; decide
  · decide
  · decide

/-- C19: when the exchange is not destroyed during parsing, `handleInputData` returns
`KUMA_ERROR_FAILED` exactly when the state the parser callbacks left is `IN_ERROR` or
`CLOSED`, and `KUMA_ERROR_NOERR` otherwise; the state it leaves is the state the parser
callbacks left; and neither the code returned nor the exchange left depends on
`bytes_used`: a value different from `len` only switches the warning on. -/
theorem handleInputData_result (x : HttpRequestImpl) (src : Bytes) (len : Nat)
    (p : ParserReply) (hlive : p.destroys = false) :
    ((handleInputData x src len p).ret = KUMA_ERROR_FAILED
        ↔ (duringParser x (.parse src len) p).state_ = .IN_ERROR
          ∨ (duringParser x (.parse src len) p).state_ = .CLOSED)
      ∧ ((handleInputData x src len p).ret = KUMA_ERROR_NOERR
        ↔ ¬ ((duringParser x (.parse src len) p).state_ = .IN_ERROR
          ∨ (duringParser x (.parse src len) p).state_ = .CLOSED))
      ∧ (handleInputData x src len p).x.state_ = (duringParser x (.parse src len) p).state_
      ∧ (∀ n : Int,
          (handleInputData x src len { p with bytes_used := n }).ret
              = (handleInputData x src len p).ret
          ∧ (handleInputData x src len { p with bytes_used := n }).x
              = (handleInputData x src len p).x)
      ∧ ((handleInputData x src len p).warned = true → toSizeT p.bytes_used ≠ len) := by
  have hne : KUMA_ERROR_NOERR ≠ KUMA_ERROR_FAILED := by decide
  rw [handleInputData_live x src len p hlive]
  refine ⟨?_, ?_, ?_, ?_, ?_⟩
  · split_ifs with h
    · exact ⟨fun _ => h, fun _ => rfl⟩
    · exact ⟨fun hbad => absurd hbad hne, fun hbad => absurd hbad h⟩
  · split_ifs with h
    · exact ⟨fun hbad => absurd hbad hne.symm, fun hbad => absurd h hbad⟩
    · exact ⟨fun _ => h, fun _ => rfl⟩
  · split_ifs <;> rfl
  · intro n
    rw [handleInputData_live x src len { p with bytes_used := n } hlive]
    have hsame : duringParser x (.parse src len) { p with bytes_used := n }
        = duringParser x (.parse src len) p := rfl
    rw [hsame]
    split_ifs <;> exact ⟨rfl, rfl⟩
  · split_ifs
    · exact False.elim
    · intro hw
      simpa using hw

/-- The witness of C19: a block of 19 bytes of which the parser reports 7 used, once with
the message completing and once with the parser raising `HTTP_ERROR`. -/
theorem handleInputData_result_witness :
    (handleInputData receiving "HTTP/1.1 200 OK\r\n\r\n".toList 19
        ⟨[.event .HTTP_COMPLETE], 7, false, false⟩).ret = KUMA_ERROR_NOERR
      ∧ (handleInputData receiving "HTTP/1.1 200 OK\r\n\r\n".toList 19
        ⟨[.event .HTTP_COMPLETE], 7, false, false⟩).x.state_ = .COMPLETE
      ∧ (handleInputData receiving "HTTP/1.1 200 OK\r\n\r\n".toList 19
        ⟨[.event .HTTP_ERROR], 7, false, false⟩).ret = KUMA_ERROR_FAILED := by
  have h1 := handleInputData_result receiving "HTTP/1.1 200 OK\r\n\r\n".toList 19
    ⟨[.event .HTTP_COMPLETE], 7, false, false⟩ rfl
  have h2 := handleInputData_result receiving "HTTP/1.1 200 OK\r\n\r\n".toList 19
    ⟨[.event .HTTP_ERROR], 7, false, false⟩ rfl
  exact ⟨h1.2.1.mpr (by decide), h1.2.2.1, h2.1.mpr (by decide)⟩

/-! ## Connection reuse -/

theorem sendRequestHeader_connectCalls (x : HttpRequestImpl) (f : SendReply) :
    connectCalls (sendRequestHeader x f) = connectCalls x := by
  simp only [sendRequestHeader, setState, record, transportSend, buildRequest, cleanup,
    connectCalls]
  split_ifs <;> simp [Call.isConnect]

/-- C15: `reset()` changes the state to `WAIT_FOR_REUSE` when it is `COMPLETE` and leaves
it as it is otherwise; and in every state other than `IDLE` (so in `WAIT_FOR_REUSE`)
`sendRequest` returns `KUMA_ERROR_NOERR` having done what `sendRequestHeader` does, with
no `connect` call on the transport. -/
theorem reuse_path (x : HttpRequestImpl) (c : Int) (f : SendReply) :
    (reset x).state_ = (if x.state_ = .COMPLETE then .WAIT_FOR_REUSE else x.state_)
      ∧ (x.state_ ≠ .IDLE →
          sendRequest x c f = .returned KUMA_ERROR_NOERR (sendRequestHeader x f)
          ∧ connectCalls (sendRequestHeader x f) = connectCalls x) := by
  refine ⟨?_, ?_⟩
  · simp only [reset, IHttpRequest_reset, record, getState, setState]
    split_ifs <;> rfl
  · intro hs
    refine ⟨?_, sendRequestHeader_connectCalls x f⟩
    simp [sendRequest, getState, hs]

/-- The witness of C15: an exchange whose response is complete is reset and sent again. -/
theorem reuse_path_witness :
    (reset (setState scenarioA .COMPLETE)).state_ = .WAIT_FOR_REUSE
      ∧ sendRequest (reset (setState scenarioA .COMPLETE)) 0 ⟨0, [], 0⟩
          = .returned KUMA_ERROR_NOERR
              (sendRequestHeader (reset (setState scenarioA .COMPLETE)) ⟨0, [], 0⟩)
      ∧ connectCalls (sendRequestHeader (reset (setState scenarioA .COMPLETE)) ⟨0, [], 0⟩)
          = [] := by
  have h := reuse_path (setState scenarioA .COMPLETE) 0 ⟨0, [], 0⟩
  have h2 := (reuse_path (reset (setState scenarioA .COMPLETE)) 0 ⟨0, [], 0⟩).2 (by decide)
  exact ⟨h.1, h2.1, h2.2⟩

/-- In the body phase of a chunked request a writable notification leaves the state
`SENDING_BODY`. -/
theorem onWrite_chunked_body (x : HttpRequestImpl) (hc : x.is_chunked_ = true)
    (hs : x.state_ = .SENDING_BODY) :
    (onWrite x).state_ = .SENDING_BODY ∧ (onWrite x).is_chunked_ = true := by
  have h1 : ¬ getState x = .SENDING_HEADER := by simp [getState, hs]
  have h2 : getState x = .SENDING_BODY := hs
  have h3 : ¬ ((!x.is_chunked_) = true ∧ x.body_bytes_sent_ ≥ x.content_length_) := by
    simp [hc]
  simp only [onWrite, if_neg h1, if_pos h2, if_neg h3]
  by_cases hw : x.write_cb_ = true <;> simp [hw, record, hs, hc]

/-- In the body phase of a chunked request no sequence of writable notifications and
transport progress changes the state. -/
theorem chunked_body_waits (x : HttpRequestImpl) (steps : List Step)
    (hc : x.is_chunked_ = true) (hs : x.state_ = .SENDING_BODY)
    (hsteps : ∀ s ∈ steps, ∀ data len t, s ≠ .sendData data len t) :
    (run x steps).state_ = .SENDING_BODY := by
  induction steps generalizing x with
  | nil => exact hs
  | cons s rest ih =>
    have hrest : ∀ s2 ∈ rest, ∀ data len t, s2 ≠ .sendData data len t :=
      fun s2 h2 => hsteps s2 (List.mem_cons_of_mem s h2)
    cases s with
    | sendData data len t => exact absurd rfl (hsteps _ (List.mem_cons_self _ rest) data len t)
    | onWrite =>
      exact ih (onWrite x) (onWrite_chunked_body x hc hs).2 (onWrite_chunked_body x hc hs).1 hrest
    | transport b o => exact ih _ hc hs hrest

/-- C16 (the code at the failing input): a chunked exchange in `SENDING_BODY` sends the end
of the body; the transport accepts the 5 bytes and keeps 2 of them in its buffer, so
`sendData` returns 0 and the state stays `SENDING_BODY`.  The transport then empties its
buffer and delivers the writable notification: the state is still `SENDING_BODY`, and
`onWrite` has invoked the write callback instead of changing the state. -/
theorem chunked_end_stays_in_body :
    (sendData chunkedBody none 0 ⟨5, "\r\n".toList, 3⟩).1 = 0
      ∧ (sendData chunkedBody none 0 ⟨5, "\r\n".toList, 3⟩).2.state_ = .SENDING_BODY
      ∧ (run chunkedBody [.sendData none 0 ⟨5, "\r\n".toList, 3⟩, .transport [] 0,
          .onWrite]).state_ = .SENDING_BODY
      ∧ (run chunkedBody [.sendData none 0 ⟨5, "\r\n".toList, 3⟩, .transport [] 0,
          .onWrite]).send_buffer_ = []
      ∧ (run chunkedBody [.sendData none 0 ⟨5, "\r\n".toList, 3⟩, .transport [] 0,
          .onWrite]).log = [.send (some "0\r\n\r\n".toList) 5, .write_cb 0] := by
  decide

/-! ## The cache record -/

/-- C18 (the claim fails as stated): an item constructed with `max_age = -1` has its
`expire_time` before its `receive_time`. -/
theorem cacheItem_negative_max_age :
    (CacheItem.create 200 [] [] (-1) 1000).receive_time = 1000
      ∧ (CacheItem.create 200 [] [] (-1) 1000).expire_time = 1000 - 1000000000
      ∧ ¬ ((CacheItem.create 200 [] [] (-1) 1000).expire_time
            ≥ (CacheItem.create 200 [] [] (-1) 1000).receive_time) := by
  decide

/-- C18 (amended): a `CacheItem` constructed at time `t` has `receive_time = t` and
`expire_time = t + max_age` seconds; `expire_time >= receive_time` holds exactly when
`max_age >= 0`; the item is valid at every time before `t + max_age` seconds and not
valid at every time from then on; with `max_age = 60` it is valid 59 seconds after `t`
and not valid 61 seconds after `t`. -/
theorem cacheItem_times (code : Int) (h : List (Bytes × Bytes)) (b : Bytes) (max_age t : Int) :
    (CacheItem.create code h b max_age t).receive_time = t
      ∧ (CacheItem.create code h b max_age t).expire_time = t + seconds max_age
      ∧ ((CacheItem.create code h b max_age t).expire_time
            ≥ (CacheItem.create code h b max_age t).receive_time ↔ 0 ≤ max_age)
      ∧ (∀ now : Int, now < t + seconds max_age →
          (CacheItem.create code h b max_age t).valid now = true)
      ∧ (∀ now : Int, t + seconds max_age ≤ now →
          (CacheItem.create code h b max_age t).valid now = false)
      ∧ (CacheItem.create code h b 60 t).valid (t + seconds 59) = true
      ∧ (CacheItem.create code h b 60 t).valid (t + seconds 61) = false := by
  refine ⟨rfl, rfl, ?_, ?_, ?_, ?_, ?_⟩
  · simp only [CacheItem.create, seconds]
    constructor <;> intro hle <;> omega
  · intro now hlt
    simpa [CacheItem.valid, CacheItem.create] using hlt
  · intro now hle
    simpa [CacheItem.valid, CacheItem.create] using hle
  · simp [CacheItem.valid, CacheItem.create, seconds]
  · simp [CacheItem.valid, CacheItem.create, seconds]

/-- The witness of C18: `storedItem`, received at tick 1000 with `max_age` 60. -/
theorem cacheItem_times_witness :
    storedItem.receive_time = 1000
      ∧ storedItem.expire_time ≥ storedItem.receive_time
      ∧ storedItem.valid (1000 + seconds 59) = true
      ∧ storedItem.valid (1000 + seconds 61) = false := by
  have h := cacheItem_times 200 [("Cache-Control".toList, "max-age=60".toList)] "body".toList
    60 1000
  exact ⟨h.1, h.2.2.1.mpr (by decide), h.2.2.2.1 _ (by decide), h.2.2.2.2.1 _ (by decide)⟩

theorem moveAssign_fields (this other : CacheItem) :
    CacheItem.moveAssign this other false = { other with status_code := this.status_code } := by
  cases this
  cases other
  rfl

theorem moveConstruct_fields (uninit other : CacheItem) :
    CacheItem.moveConstruct uninit other = { other with status_code := uninit.status_code } := by
  cases uninit
  cases other
  rfl

/-- C20 (the code at the failing input): a response stored with status 200 is moved into a
value-initialised item, as an insertion in the cache map does.  After the move
assignment, and after a move construction, the headers, the body and the two times
are those of the stored item and the status code is not: it is the 0 the target held. -/
theorem cacheItem_move_loses_status :
    storedItem.status_code = 200
      ∧ (CacheItem.moveAssign emptyItem storedItem false).status_code = 0
      ∧ CacheItem.moveAssign emptyItem storedItem false = { storedItem with status_code := 0 }
      ∧ (CacheItem.moveConstruct emptyItem storedItem).status_code = 0
      ∧ CacheItem.moveConstruct emptyItem storedItem = { storedItem with status_code := 0 } := by
  decide

end Kuma
